import Mathlib

/-!
Shallow embedding of the authoritative game-server core of
`bizmartstore/myrpg-mmorpg` (`src/server.js`), together with proofs about it.

Modelling conventions:
* JS numbers that hold fractional or possibly-negative quantities
  (coordinates, hit points, damage, equipment bonuses, speed) are `ℚ`;
  integral quantities that a client can supply with either sign (level,
  experience, stat points, attribute values) are `ℤ`; counters the server
  alone produces (millisecond timestamps, loot indices, fuel) are `ℕ`.
* `Math.round` is `jsRound` (round half toward positive infinity).
* The entity tables (`players`, `monsters`, `mapPlayers`, `mapMonsters`,
  all JS `Map`s) are association lists keyed by strings.
* `socket.emit` / broadcasts are modelled by returning a list of emitted
  events; `setTimeout`-scheduled monster respawns are returned as a list of
  `(monsterId, delayMs)` pairs, and the timer callbacks themselves
  (`respawnFire`, the two revive callbacks) are explicit operations.
* Randomness (loot rolls, critical-hit rolls, spawn positions) is passed in
  as explicit parameters.
-/

namespace MyRPG

/-- JS `Math.round`: rounds half toward positive infinity. -/
def jsRound (q : ℚ) : ℤ := Int.floor (q + 1/2)

/-- JS `x || 1` on an integer: only `0` is falsy and becomes `1`; every
other value (negative ones included) passes through unchanged. -/
def or1 (n : ℤ) : ℤ := if n = 0 then 1 else n

/-- The six allocatable attributes of a player (`player.stats`).  They are
integers of either sign: `player:allocateStat` adds the raw client-supplied
`points` to an attribute, so a hostile client can drive them negative. -/
structure Stats where
  STR : ℤ
  AGI : ℤ
  VIT : ℤ
  INT : ℤ
  DEX : ℤ
  LUCK : ℤ
deriving Repr, DecidableEq

/-- Per-class base-stat row of `CLASS_BASE` in `calculatePlayerStats`. -/
structure ClassBase where
  baseHp : ℚ
  hpPerLevel : ℚ
  baseAttack : ℚ
  attackPerLevel : ℚ
deriving Repr, DecidableEq

/-- The single defined class row: `assassin`. -/
def assassinBase : ClassBase :=
  { baseHp := 120, hpPerLevel := 25, baseAttack := 15, attackPerLevel := 4 }

/-- Lookup `CLASS_BASE[character_class] || CLASS_BASE.assassin`: the only key is
`assassin`, every other class tag falls back to the assassin row. -/
def classBase (character_class : String) : ClassBase :=
  if character_class = "assassin" then assassinBase else assassinBase

/-- A player entity as stored in the `players` table.  The write-only
`isOnline` flag and the per-channel chat cooldown map are omitted (no claim
reads them); every other field of the source record is present. -/
structure Player where
  email : String
  name : String
  character_class : String
  level : ℤ
  xp : ℤ
  x : ℚ
  y : ℚ
  direction : String
  state : String
  map : String
  socketId : Option String
  lastUpdate : ℕ
  hp : ℚ
  maxHp : ℚ
  attack : ℚ
  speed : ℚ
  isDead : Bool
  inventory : List String
  statPointsAvailable : ℤ
  stats : Stats
  lastAttackTime : ℕ
  equipment : List (String × ℚ)
deriving Repr, DecidableEq

/-- Embedding of `calculatePlayerStats(player)`: class/level base stats. -/
def calculatePlayerStats (p : Player) : ℚ × ℚ :=
  let cls := classBase p.character_class
  (cls.baseHp + cls.hpPerLevel * ((p.level : ℚ) - 1),
   cls.baseAttack + cls.attackPerLevel * ((p.level : ℚ) - 1))

/-- Result record of `calculateDerivedStats`. -/
structure Derived where
  maxHp : ℚ
  attack : ℚ
  speed : ℚ
deriving Repr, DecidableEq

/-- Embedding of `calculateDerivedStats(player)`: base stats plus attribute bonuses
(`(player.stats?.VIT || 1) - 1` etc.). -/
def calculateDerivedStats (p : Player) : Derived :=
  let base := calculatePlayerStats p
  let vitBonus : ℚ := (or1 p.stats.VIT : ℚ) - 1
  let strBonus : ℚ := (or1 p.stats.STR : ℚ) - 1
  { maxHp := base.1 + vitBonus * 10
    attack := base.2 + strBonus * 2
    speed := 1 + ((or1 p.stats.AGI : ℚ) - 1) * (1/10) }

/-- Sum of the numeric values stored under `key` across all equipped items
(the `bonus` accumulator of `recalcPlayerWithEquipment`, with the equipment
bag flattened to a list of `(statKey, value)` entries). -/
def bonusFor (equip : List (String × ℚ)) (key : String) : ℚ :=
  (equip.filter (fun kv => kv.1 = key)).foldl (fun acc kv => acc + kv.2) 0

/-- The Stat Pipeline's final `maxHp`: derived stats plus equipment bonus. -/
def pipelineMaxHp (p : Player) : ℚ :=
  (calculateDerivedStats p).maxHp + bonusFor p.equipment "maxHp"

/-- The Stat Pipeline's final `attack`: derived stats plus equipment bonus. -/
def pipelineAttack (p : Player) : ℚ :=
  (calculateDerivedStats p).attack + bonusFor p.equipment "attack"

/-- The Stat Pipeline's final `speed`: derived stats plus equipment bonus. -/
def pipelineSpeed (p : Player) : ℚ :=
  (calculateDerivedStats p).speed + bonusFor p.equipment "speed"

/-- Embedding of `recalcPlayerWithEquipment(player, options)`.  Note the source computes
the `hpRatio` only after `player.maxHp` has already been overwritten with
the new maximum (the `Object.entries(base)` assignment loop runs first), so
`oldMaxHp` reads the new maximum; the embedding reproduces that order.
`oldHp = player.hp ?? player.maxHp` collapses to `player.hp` because `hp`
is always present here. -/
def recalcPlayerWithEquipment (p : Player) (preserveHpRatio : Bool) : Player :=
  let p1 : Player :=
    { p with
      maxHp := pipelineMaxHp p
      attack := pipelineAttack p
      speed := pipelineSpeed p }
  if preserveHpRatio then
    if p1.isDead then p1
    else
      let oldHp := p1.hp
      let oldMaxHp := p1.maxHp
      let hpRatio := oldHp / oldMaxHp
      let newHp : ℚ := (jsRound (p1.maxHp * hpRatio) : ℚ)
      { p1 with hp := if newHp > p1.maxHp then p1.maxHp else newHp }
  else
    { p1 with hp := p1.maxHp }

/-- Embedding of `levelUpPlayer(player)`: bump the level, re-run the stat pipeline,
heal to full, grant 5 stat points (the `player:levelUp` emit carries no
state and is not modelled). -/
def levelUpPlayer (p : Player) : Player :=
  let p1 := recalcPlayerWithEquipment { p with level := p.level + 1 } true
  let p2 := { p1 with hp := p1.maxHp }
  { p2 with statPointsAvailable := p2.statPointsAvailable + 5 }

/-- Fuel-indexed form of the `while (player.xp >= xpToLevel)` loop of
`giveXp`.  One fuel unit is spent per loop iteration.  On the well-formed
domain `1 ≤ level` every iteration consumes `level * 100 ≥ 100` experience,
so fuel equal to `xp.toNat` is always sufficient (`giveXpGo_fuel`); the
`1 ≤ level` guard restricts the embedding to that domain (at `level ≤ 0`
the source loop first levels the player up to 1 before draining; no claim
concerns that path and the invariant theorems never reach it). -/
def giveXpGo : ℕ → Player → Player
  | 0, p => p
  | Nat.succ fuel, p =>
    if 1 ≤ p.level ∧ p.level * 100 ≤ p.xp then
      giveXpGo fuel (levelUpPlayer { p with xp := p.xp - p.level * 100 })
    else p

/-- Embedding of `giveXp(player, xpAmount)`: add the award, then run the multi-level-up
loop (the trailing `player:xpUpdated` emit carries no state change). -/
def giveXp (p : Player) (xpAmount : ℕ) : Player :=
  giveXpGo (p.xp + xpAmount).toNat { p with xp := p.xp + xpAmount }

/-- Pure `(level, xp)` projection of the level-up loop, fuel-indexed. -/
def drainGo : ℕ → ℤ → ℤ → ℤ × ℤ
  | 0, l, x => (l, x)
  | Nat.succ fuel, l, x =>
    if 1 ≤ l ∧ l * 100 ≤ x then drainGo fuel (l + 1) (x - l * 100) else (l, x)

/-- Pure `(level, xp)` effect of the level-up loop started at `(l, x)`. -/
def drain (l x : ℤ) : ℤ × ℤ := drainGo x.toNat l x

/-! ### Entity tables and map configuration -/

/-- Lookup in an association list (a JS `Map.get`). -/
def alookup {α : Type} : List (String × α) → String → Option α
  | [], _ => none
  | kv :: rest, k => if kv.1 = k then some kv.2 else alookup rest k

/-- Apply `f` to the value stored under `k`, if any (mutation of a fetched
record in place). -/
def amodify {α : Type} (l : List (String × α)) (k : String) (f : α → α) :
    List (String × α) :=
  l.map (fun kv => if kv.1 = k then (kv.1, f kv.2) else kv)

/-- JS `Map.set`: replace the value under `k`, or append a fresh entry. -/
def aupsert {α : Type} (l : List (String × α)) (k : String) (v : α) :
    List (String × α) :=
  if (alookup l k).isSome then amodify l k (fun _ => v) else l ++ [(k, v)]

/-- JS `Map.delete`. -/
def aremove {α : Type} (l : List (String × α)) (k : String) : List (String × α) :=
  l.filter (fun kv => decide (kv.1 ≠ k))

/-- JS `Set.add` on a membership list. -/
def addMem (l : List String) (e : String) : List String :=
  if e ∈ l then l else l ++ [e]

/-- JS `Set.delete` on a membership list. -/
def removeMem (l : List String) (e : String) : List String :=
  l.filter (fun s => decide (s ≠ e))

/-- Embedding of `if (!index.has(mapId)) index.set(mapId, new Set()); index.get(mapId).add(id)`. -/
def addToMapIndex (mp : List (String × List String)) (mapId id : String) :
    List (String × List String) :=
  match alookup mp mapId with
  | some _ => amodify mp mapId (fun l => addMem l id)
  | none => mp ++ [(mapId, [id])]

/-- Static map configuration row of `MAPS`. -/
structure MapDef where
  spawnX : ℚ
  spawnY : ℚ
  safeZone : Bool
  minLevel : Option ℕ
deriving Repr, DecidableEq

/-- The `MAPS` table: `town_1`, `monster_field_1`, `pvp_arena`. -/
def MAPS (mapId : String) : Option MapDef :=
  if mapId = "town_1" then some ⟨1200, 900, true, none⟩
  else if mapId = "monster_field_1" then some ⟨400, 400, false, none⟩
  else if mapId = "pvp_arena" then some ⟨500, 500, false, some 10⟩
  else none

/-- Spawn x-coordinate of a configured map (`MAPS[id].spawnX`). -/
def mapSpawnX (mapId : String) : ℚ := ((MAPS mapId).map MapDef.spawnX).getD 0

/-- Spawn y-coordinate of a configured map (`MAPS[id].spawnY`). -/
def mapSpawnY (mapId : String) : ℚ := ((MAPS mapId).map MapDef.spawnY).getD 0

/-- A row of `MONSTER_STATS`. -/
structure MonsterStat where
  hp : ℚ
  attack : ℚ
  speed : ℚ
  aggro : ℚ
  attackRange : ℚ
  cooldown : ℕ
  xp : ℕ
  loot : List String
deriving Repr, DecidableEq

/-- The `MONSTER_STATS` table. -/
def monsterStats (t : String) : Option MonsterStat :=
  if t = "poring" then some ⟨50, 5, 3/2, 150, 40, 1500, 5, ["potion"]⟩
  else if t = "lunatic" then some ⟨60, 8, 2, 180, 50, 1300, 8, ["potion", "coin"]⟩
  else if t = "fabre" then some ⟨45, 6, 9/5, 160, 45, 1400, 6, ["coin"]⟩
  else if t = "chonchon" then some ⟨55, 7, 11/5, 200, 60, 1200, 10, ["potion", "coin", "gem"]⟩
  else none

/-- A row of `MONSTER_SPAWNS`. -/
structure SpawnConfig where
  count : ℕ
  types : List String
  minX : ℚ
  maxX : ℚ
  minY : ℚ
  maxY : ℚ
deriving Repr, DecidableEq

/-- The `MONSTER_SPAWNS` table (only `monster_field_1` has a spawn config). -/
def monsterSpawns (mapId : String) : Option SpawnConfig :=
  if mapId = "monster_field_1" then
    some ⟨20, ["poring", "lunatic", "fabre", "chonchon"], 100, 2300, 100, 1800⟩
  else none

/-- A monster entity as stored in the `monsters` table. -/
structure Monster where
  id : String
  type : String
  mapId : String
  x : ℚ
  y : ℚ
  spawnX : ℚ
  spawnY : ℚ
  direction : String
  state : String
  hp : ℚ
  maxHp : ℚ
  attack : ℚ
  speed : ℚ
  aggroRange : ℚ
  attackRange : ℚ
  attackCooldown : ℕ
  lastAttack : ℕ
  target : Option String
  lastUpdate : ℕ
  lastHitBy : Option String
deriving Repr, DecidableEq

/-- The whole mutable server state: the `players`, `mapPlayers`, `monsters`
and `mapMonsters` tables. -/
structure World where
  players : List (String × Player)
  mapPlayers : List (String × List String)
  monsters : List (String × Monster)
  mapMonsters : List (String × List String)
deriving Repr, DecidableEq

/-- The empty server state at process start. -/
def World.empty : World := ⟨[], [], [], []⟩

/-- Update one player record in place. -/
def pupdate (w : World) (email : String) (f : Player → Player) : World :=
  { w with players := amodify w.players email f }

/-- Events emitted to clients, with just enough payload to state the claims. -/
inductive Ev
  | xpUpdated (email : String) (xp level : ℤ)
  | statsInitialized (email : String)
  | statsUpdated (email : String)
  | monsterSpawn (id : String)
  | playerJoined (email : String)
  | playerLeft (email : String)
  | hpChanged (email : String) (hp maxHp damage : ℚ)
  | playerDamaged (email : String) (damage : ℚ)
  | hitDenied (email : String)
  | attackResult (attacker target : String) (damage : ℚ)
  | pvpHit (attacker target : String) (damage : ℚ)
  | playerDied (email : String)
  | playerRevived (email : String)
  | monsterHitEv (id : String) (hp damage : ℚ)
  | monsterDespawn (id : String)
  | dropSpawn (itemName mapId : String)
  | monsterKilled (id killer : String) (xpGain : ℕ)
  | mapError (email : String)
deriving Repr, DecidableEq

/-! ### AOI subsystem -/

/-- The fixed AOI radius, 800 units. -/
def AOI_RADIUS : ℚ := 800

/-- The source compares `Math.sqrt(dx*dx + dy*dy) <= AOI_RADIUS`; both sides
are non-negative, so comparing squares is exact (`broadcastToAOI_spec`
relates this back to the Euclidean distance). -/
def inAOIRange (x1 y1 x2 y2 : ℚ) : Bool :=
  decide ((x2 - x1) ^ 2 + (y2 - y1) ^ 2 ≤ AOI_RADIUS ^ 2)

/-- Embedding of `broadcastToAOI(email, x, y, mapId, event, data)`: the set of players
that receive the emit, returned as the list of their emails. -/
def broadcastToAOI (w : World) (email : String) (x y : ℚ) (mapId : String) :
    List String :=
  ((alookup w.mapPlayers mapId).getD []).filter (fun other =>
    if other = email then false
    else
      match alookup w.players other with
      | none => false
      | some p => p.socketId.isSome && inAOIRange x y p.x p.y)

/-! ### Monster spawning and map cleanup -/

/-- One iteration's randomness in `spawnMonsters`: a fresh monster id, the
random index into `config.types`, and the random position. -/
structure SpawnRoll where
  mid : String
  tyIdx : ℕ
  x : ℚ
  y : ℚ
deriving Repr, DecidableEq

/-- The monster object literal built by `spawnMonsters`. -/
def mkMonster (mid ty mapId : String) (x y : ℚ) (st : MonsterStat) (now : ℕ) :
    Monster :=
  { id := mid, type := ty, mapId := mapId, x := x, y := y, spawnX := x, spawnY := y
    direction := "front", state := "idle", hp := st.hp, maxHp := st.hp
    attack := st.attack, speed := st.speed, aggroRange := st.aggro
    attackRange := st.attackRange, attackCooldown := st.cooldown, lastAttack := 0
    target := none, lastUpdate := now, lastHitBy := none }

/-- One loop iteration of `spawnMonsters`: respects the per-map cap. -/
def spawnOne (w : World) (mapId : String) (cfg : SpawnConfig) (r : SpawnRoll)
    (now : ℕ) : World × List Ev :=
  let cur := (alookup w.mapMonsters mapId).getD []
  if cfg.count ≤ cur.length then (w, [])
  else
    match cfg.types.get? (r.tyIdx % cfg.types.length) with
    | none => (w, [])
    | some ty =>
      match monsterStats ty with
      | none => (w, [])
      | some st =>
        ({ w with
            monsters := aupsert w.monsters r.mid (mkMonster r.mid ty mapId r.x r.y st now)
            mapMonsters := addToMapIndex w.mapMonsters mapId r.mid },
         [Ev.monsterSpawn r.mid])

/-- Embedding of `spawnMonsters(mapId)`: tops the map's monster set up to the configured
count; the per-iteration randomness is passed in as `rolls`. -/
def spawnMonsters (w : World) (mapId : String) (rolls : List SpawnRoll) (now : ℕ) :
    World × List Ev :=
  match monsterSpawns mapId with
  | none => (w, [])
  | some cfg =>
    rolls.foldl
      (fun acc r =>
        let res := spawnOne acc.1 mapId cfg r now
        (res.1, acc.2 ++ res.2))
      (w, [])

/-- Embedding of `cleanupMapIfEmpty(mapId)`: when the map's player set exists and is
empty, purge every monster of the map and drop the map's monster index. -/
def cleanupMapIfEmpty (w : World) (mapId : String) : World :=
  match alookup w.mapPlayers mapId with
  | none => w
  | some l =>
    if l.length = 0 then
      { w with
        monsters := ((alookup w.mapMonsters mapId).getD []).foldl
          (fun acc mid => aremove acc mid) w.monsters
        mapMonsters := aremove w.mapMonsters mapId }
    else w

/-! ### Death and revival -/

/-- Embedding of `handlePlayerDeath(player)`: idempotent; marks dead, relocates to the
town spawn and re-registers map membership.  The 3-second revive timer body
is the separate operation `reviveDefaultFire`. -/
def handlePlayerDeath (w : World) (email : String) : World × List Ev :=
  match alookup w.players email with
  | none => (w, [])
  | some p =>
    if p.isDead then (w, [])
    else
      let p1 := { p with isDead := true, state := "dead", map := "town_1"
                         x := mapSpawnX "town_1", y := mapSpawnY "town_1" }
      ({ w with
          players := amodify w.players email (fun _ => p1)
          mapPlayers := addToMapIndex
            (amodify w.mapPlayers p.map (fun l => removeMem l email)) "town_1" email },
       [Ev.playerDied email])

/-- Embedding of `handlePvPDeath(player)`: idempotent; marks dead, no relocation.  The
3-second revive timer body is the separate operation `revivePvpFire`. -/
def handlePvPDeath (w : World) (email : String) : World × List Ev :=
  match alookup w.players email with
  | none => (w, [])
  | some p =>
    if p.isDead then (w, [])
    else (pupdate w email (fun q => { q with isDead := true, state := "dead" }), [])

/-- The revive timer body scheduled by `handlePlayerDeath`: recompute stats
with equipment, heal to full, clear the dead flag. -/
def reviveDefaultFire (w : World) (email : String) : World × List Ev :=
  match alookup w.players email with
  | none => (w, [])
  | some p =>
    let p1 := recalcPlayerWithEquipment p true
    let p2 := { p1 with hp := p1.maxHp, state := "idle", isDead := false }
    (pupdate w email (fun _ => p2), [Ev.playerRevived email])

/-- The revive timer body scheduled by `handlePvPDeath`: additionally
repositions at the PvP arena spawn point. -/
def revivePvpFire (w : World) (email : String) : World × List Ev :=
  match alookup w.players email with
  | none => (w, [])
  | some p =>
    let p1 := recalcPlayerWithEquipment p true
    let p2 := { p1 with hp := p1.maxHp, state := "idle", isDead := false
                        x := mapSpawnX "pvp_arena", y := mapSpawnY "pvp_arena" }
    (pupdate w email (fun _ => p2), [Ev.playerRevived email])

/-! ### Combat handlers -/

/-- Embedding of `monsterAttackPlayer(monster, targetPlayer)`: flat monster attack damage,
HP clamped at 0, death transition when HP is depleted. -/
def monsterAttackPlayer (w : World) (m : Monster) (targetEmail : String) :
    World × List Ev :=
  match alookup w.players targetEmail with
  | none => (w, [])
  | some t =>
    if t.isDead then (w, [])
    else
      let damage := m.attack
      let t1 := { t with hp := max 0 (t.hp - damage) }
      let w1 := pupdate w targetEmail (fun _ => t1)
      let evs := [Ev.hpChanged targetEmail t1.hp t1.maxHp damage,
                  Ev.playerDamaged targetEmail damage]
      if t1.hp ≤ 0 then
        let res := handlePlayerDeath w1 targetEmail
        (res.1, evs ++ res.2)
      else (w1, evs)

/-- The `player:pvpAttack` handler.  The critical-hit `Math.random()` draw is
passed in as `critRoll`; the crit fires when `critRoll < LUCK * 0.05`. -/
def pvpAttackHandler (w : World) (attackerEmail targetEmail : String) (now : ℕ)
    (critRoll : ℚ) : World × List Ev :=
  match alookup w.players attackerEmail with
  | none => (w, [])
  | some a =>
    if a.isDead then (w, [])
    else if now - a.lastAttackTime < 1000 then (w, [])
    else
      let w1 := pupdate w attackerEmail (fun q => { q with lastAttackTime := now })
      let a1 := { a with lastAttackTime := now }
      match alookup w1.players targetEmail with
      | none => (w1, [])
      | some t =>
        if t.isDead then (w1, [])
        else if a1.map ≠ "pvp_arena" ∨ t.map ≠ "pvp_arena" then (w1, [])
        else
          let dmg1 : ℚ :=
            if critRoll < (a1.stats.LUCK : ℚ) * (1/20) then a1.attack * 2 else a1.attack
          let damage : ℚ := (jsRound dmg1 : ℚ)
          let t1 := { t with hp := max 0 (t.hp - damage) }
          let w2 := pupdate w1 targetEmail (fun _ => t1)
          let evs := [Ev.attackResult attackerEmail targetEmail damage,
                      Ev.hpChanged targetEmail t1.hp t1.maxHp damage,
                      Ev.pvpHit attackerEmail targetEmail damage]
          if t1.hp ≤ 0 then
            let res := handlePvPDeath w2 targetEmail
            (res.1, evs ++ res.2)
          else (w2, evs)

/-- The `player:hit` handler: client-reported `damage` applied to the
handler's own player, with the PvP-enforcement denial and the in-arena
instant-respawn branch. -/
def playerHitHandler (w : World) (email : String) (damage : ℚ)
    (attackerEmail : Option String) : World × List Ev :=
  match alookup w.players email with
  | none => (w, [])
  | some p =>
    if p.isDead then (w, [])
    else
      let attackerFound :=
        match attackerEmail with
        | some ae => (alookup w.players ae).isSome
        | none => false
      if attackerFound = true ∧ p.map ≠ "pvp_arena" then (w, [Ev.hitDenied email])
      else
        let p1 := { p with hp := max 0 (p.hp - damage) }
        let w1 := pupdate w email (fun _ => p1)
        let evs := [Ev.hpChanged email p1.hp p1.maxHp damage,
                    Ev.playerDamaged email damage]
        if p1.hp ≤ 0 then
          if p1.map = "pvp_arena" then
            let p2 := { p1 with hp := p1.maxHp, x := mapSpawnX "pvp_arena"
                                y := mapSpawnY "pvp_arena" }
            (pupdate w1 email (fun _ => p2), evs ++ [Ev.playerRevived email])
          else
            let res := handlePlayerDeath w1 email
            (res.1, evs ++ res.2)
        else (w1, evs)

/-- The `monster:hit` handler: trusted client damage against a monster of
the attacker's map; on death, despawn broadcast, last-hit kill credit (XP
plus one loot item chosen by `lootRoll`), drop spawn, and one scheduled
respawn 5000 ms out (third component).  When the monster's type has no
`MONSTER_STATS` row the source would throw on `stats.xp`; that state is
unreachable for spawned monsters and the embedding skips the kill credit. -/
def monsterHitHandler (w : World) (attackerEmail monsterId : String) (damage : ℚ)
    (lootRoll : ℕ) : World × List Ev × List (String × ℕ) :=
  match alookup w.players attackerEmail with
  | none => (w, [], [])
  | some cp =>
    if cp.isDead then (w, [], [])
    else
      match alookup w.monsters monsterId with
      | none => (w, [], [])
      | some m =>
        if m.mapId ≠ cp.map ∨ m.hp ≤ 0 then (w, [], [])
        else
          let m1 := { m with hp := max 0 (m.hp - damage), lastHitBy := some attackerEmail }
          let w1 := { w with monsters := amodify w.monsters monsterId (fun _ => m1) }
          let evs0 := [Ev.monsterHitEv monsterId m1.hp damage]
          if m1.hp ≤ 0 then
            let evs1 := evs0 ++ [Ev.monsterDespawn monsterId]
            match alookup w1.players attackerEmail with
            | none => (w1, evs1, [(monsterId, 5000)])
            | some killer =>
              match monsterStats m1.type with
              | none => (w1, evs1, [(monsterId, 5000)])
              | some st =>
                let killer1 := giveXp killer st.xp
                let lootItem := st.loot.get? (lootRoll % st.loot.length)
                let killer2 :=
                  match lootItem with
                  | some item => { killer1 with inventory := killer1.inventory ++ [item] }
                  | none => killer1
                let w2 := pupdate w1 attackerEmail (fun _ => killer2)
                (w2,
                 evs1 ++ [Ev.xpUpdated attackerEmail killer1.xp killer1.level,
                          Ev.dropSpawn (lootItem.getD "") m1.mapId,
                          Ev.monsterKilled monsterId attackerEmail st.xp],
                 [(monsterId, 5000)])
          else (w1, evs0, [])

/-- The body of the respawn `setTimeout` scheduled by `monster:hit`: no-op
when the monster record has been removed, otherwise reset to full HP at the
spawn-origin position. -/
def respawnFire (w : World) (monsterId : String) : World × List Ev :=
  match alookup w.monsters monsterId with
  | none => (w, [])
  | some m =>
    ({ w with
        monsters := amodify w.monsters monsterId
          (fun _ => { m with hp := m.maxHp, x := m.spawnX, y := m.spawnY
                             state := "idle", target := none }) },
     [Ev.monsterSpawn monsterId])

/-! ### Life-cycle handlers -/

/-- The first-time-join player construction: the object literal of the
`player:join` handler (base stats from `calculatePlayerStats`, default
attributes, empty inventory and equipment), followed by
`recalcPlayerWithEquipment(currentPlayer, { preserveHpRatio: false })` and
the full-HP top-up. -/
def joinFreshPlayer (email name character_class : String) (level xpIn : ℤ)
    (x y : ℚ) (map sockId : String) (now : ℕ) : Player :=
  let p0 : Player :=
    { email := email, name := name, character_class := character_class
      level := level, xp := xpIn, x := x, y := y, direction := "front"
      state := "idle", map := map, socketId := some sockId, lastUpdate := now
      hp := 0, maxHp := 0, attack := 0, speed := 1, isDead := false
      inventory := [], statPointsAvailable := 5, stats := ⟨1, 1, 1, 1, 1, 1⟩
      lastAttackTime := 0, equipment := [] }
  let base := calculatePlayerStats p0
  let p1 := { p0 with hp := base.1, maxHp := base.1, attack := base.2 }
  let p2 := recalcPlayerWithEquipment p1 false
  { p2 with hp := p2.maxHp }

/-- The `player:join` handler.  The known-identity branch reuses the stored
record (refreshing socket, position, map, recomputed stats); the first-time
branch constructs a fresh player from the stat pipeline with full HP.
Per-connection snapshot emits (`monster:spawn` backfill, nearby
`player:joined`) carry no state change and are summarised by the returned
event list. -/
def joinHandler (w : World) (email name character_class : String) (level xpIn : ℤ)
    (x y : ℚ) (map sockId : String) (now : ℕ) (rolls : List SpawnRoll) :
    World × List Ev :=
  match alookup w.players email with
  | some p =>
    let p1 := recalcPlayerWithEquipment
      { p with socketId := some sockId, x := x, y := y, map := map, lastUpdate := now }
      true
    let w1 := { w with
      players := amodify w.players email (fun _ => p1)
      mapPlayers := addToMapIndex w.mapPlayers map email }
    let res := spawnMonsters w1 map rolls now
    (res.1, [Ev.xpUpdated email p1.xp p1.level, Ev.statsInitialized email] ++ res.2)
  | none =>
    let p3 := joinFreshPlayer email name character_class level xpIn x y map
      sockId now
    let w1 := { w with
      players := w.players ++ [(email, p3)]
      mapPlayers := addToMapIndex w.mapPlayers map email }
    let res := spawnMonsters w1 map rolls now
    (res.1,
     [Ev.xpUpdated email p3.xp p3.level, Ev.statsInitialized email] ++ res.2
       ++ [Ev.playerJoined email])

/-- Set one allocatable attribute by key. -/
def setStat (s : Stats) (key : String) (f : ℤ → ℤ) : Stats :=
  if key = "STR" then { s with STR := f s.STR }
  else if key = "AGI" then { s with AGI := f s.AGI }
  else if key = "VIT" then { s with VIT := f s.VIT }
  else if key = "INT" then { s with INT := f s.INT }
  else if key = "DEX" then { s with DEX := f s.DEX }
  else if key = "LUCK" then { s with LUCK := f s.LUCK }
  else s

/-- Embedding of `player.stats.hasOwnProperty(stat)`. -/
def statKeyValid (key : String) : Bool :=
  key = "STR" || key = "AGI" || key = "VIT" || key = "INT" || key = "DEX"
    || key = "LUCK"

/-- The `player:allocateStat` handler.  `points` is the raw client number:
the `statPointsAvailable < points` guard does not reject negative values,
which therefore subtract from an attribute and grow the point balance. -/
def allocateStatHandler (w : World) (email stat : String) (points : ℤ) :
    World × List Ev :=
  match alookup w.players email with
  | none => (w, [])
  | some p =>
    if p.statPointsAvailable < points then (w, [])
    else if ¬ statKeyValid stat then (w, [])
    else
      let p1 := { p with stats := setStat p.stats stat (fun v => v + points)
                         statPointsAvailable := p.statPointsAvailable - points }
      let p2 := recalcPlayerWithEquipment p1 true
      let p3 := { p2 with hp := min p2.hp p2.maxHp }
      (pupdate w email (fun _ => p3), [Ev.statsUpdated email])

/-- The `player:changeMap` handler. -/
def changeMapHandler (w : World) (email mapId : String) (x y : ℚ)
    (rolls : List SpawnRoll) (now : ℕ) : World × List Ev :=
  match alookup w.players email with
  | none => (w, [])
  | some p =>
    match MAPS mapId with
    | none => (w, [Ev.mapError email])
    | some td =>
      if (match td.minLevel with
          | some ml => decide (p.level < (ml : ℤ))
          | none => false) = true then
        (w, [Ev.mapError email])
      else
        let oldMap := p.map
        let hasOld := (alookup w.mapPlayers oldMap).isSome
        let w1 := { w with
          mapPlayers := amodify w.mapPlayers oldMap (fun l => removeMem l email) }
        let w2 := cleanupMapIfEmpty w1 oldMap
        let w3 := pupdate w2 email (fun q => { q with map := mapId, x := x, y := y })
        let w4 := { w3 with mapPlayers := addToMapIndex w3.mapPlayers mapId email }
        let res := spawnMonsters w4 mapId rolls now
        (res.1,
         (if hasOld then [Ev.playerLeft email] else []) ++ res.2
           ++ [Ev.playerJoined email])

/-- The `player:move` handler, with the 40 ms movement throttle. -/
def moveHandler (w : World) (email : String) (x y : ℚ) (dir st : String) (now : ℕ) :
    World × List Ev :=
  match alookup w.players email with
  | none => (w, [])
  | some p =>
    if p.isDead then (w, [])
    else if now - p.lastUpdate < 40 then (w, [])
    else
      (pupdate w email (fun q =>
        { q with x := x, y := y, direction := dir, state := st, lastUpdate := now }), [])

/-- The `disconnect` handler: remove map membership, clean up an emptied
map, null the connection handle; the Player record is retained. -/
def disconnectHandler (w : World) (email : String) : World × List Ev :=
  match alookup w.players email with
  | none => (w, [])
  | some p =>
    let hasMap := (alookup w.mapPlayers p.map).isSome
    let w1 := { w with
      mapPlayers := amodify w.mapPlayers p.map (fun l => removeMem l email) }
    let w2 := if hasMap then cleanupMapIfEmpty w1 p.map else w1
    let w3 := pupdate w2 email (fun q => { q with socketId := none })
    (w3, if hasMap then [Ev.playerLeft email] else [])

/-! ### Operations and reachability -/

/-- One externally triggered operation: an inbound client event, an AI-driven
monster attack, or a timer callback.  All randomness and timestamps are
carried by the operation. -/
inductive Op
  | join (email name character_class : String) (level xpIn : ℤ) (x y : ℚ)
      (map sockId : String) (now : ℕ) (rolls : List SpawnRoll)
  | move (email : String) (x y : ℚ) (dir st : String) (now : ℕ)
  | playerHit (email : String) (damage : ℚ) (attackerEmail : Option String)
  | pvpAttack (attackerEmail targetEmail : String) (now : ℕ) (critRoll : ℚ)
  | monsterAttack (monsterId targetEmail : String)
  | monsterHit (attackerEmail monsterId : String) (damage : ℚ) (lootRoll : ℕ)
  | allocateStat (email stat : String) (points : ℤ)
  | changeMap (email mapId : String) (x y : ℚ) (rolls : List SpawnRoll) (now : ℕ)
  | disconnect (email : String)
  | reviveDefault (email : String)
  | revivePvp (email : String)
  | monsterRespawn (monsterId : String)

/-- Step function: dispatch one operation; the result carries the new world,
the emitted events and the newly scheduled respawns. -/
def step (w : World) : Op → World × List Ev × List (String × ℕ)
  | .join e n c l xi x y m s now rolls =>
    let res := joinHandler w e n c l xi x y m s now rolls
    (res.1, res.2, [])
  | .move e x y d st now =>
    let res := moveHandler w e x y d st now
    (res.1, res.2, [])
  | .playerHit e d ae =>
    let res := playerHitHandler w e d ae
    (res.1, res.2, [])
  | .pvpAttack a t now roll =>
    let res := pvpAttackHandler w a t now roll
    (res.1, res.2, [])
  | .monsterAttack mid t =>
    match alookup w.monsters mid with
    | none => (w, [], [])
    | some m =>
      let res := monsterAttackPlayer w m t
      (res.1, res.2, [])
  | .monsterHit a mid d roll => monsterHitHandler w a mid d roll
  | .allocateStat e st pts =>
    let res := allocateStatHandler w e st pts
    (res.1, res.2, [])
  | .changeMap e m x y rolls now =>
    let res := changeMapHandler w e m x y rolls now
    (res.1, res.2, [])
  | .disconnect e =>
    let res := disconnectHandler w e
    (res.1, res.2, [])
  | .reviveDefault e =>
    let res := reviveDefaultFire w e
    (res.1, res.2, [])
  | .revivePvp e =>
    let res := revivePvpFire w e
    (res.1, res.2, [])
  | .monsterRespawn mid =>
    let res := respawnFire w mid
    (res.1, res.2, [])

/-- The validation conditions the amended C1 adds on client-supplied
numbers: `player:hit` damage is non-negative, `player:join` carries a level
of at least 1, and `player:allocateStat` carries a non-negative point
count.  Every other operation is unrestricted.  Each condition is forced
by a concrete violation of the invariant on the raw code (see
`claim_C1_counterexample`). -/
def ValidOp : Op → Prop
  | .playerHit _ d _ => 0 ≤ d
  | .join _ _ _ l _ _ _ _ _ _ _ => 1 ≤ l
  | .allocateStat _ _ pts => 0 ≤ pts
  | _ => True

/-- Worlds reachable from the empty process state by valid operations. -/
inductive Reachable : World → Prop
  | init : Reachable World.empty
  | next {w : World} (op : Op) : Reachable w → ValidOp op → Reachable (step w op).1

/-! ### Basic lemmas about the stat pipeline -/

lemma one_le_or1 {n : ℤ} (h : 0 ≤ n) : 1 ≤ or1 n := by
  unfold or1; split <;> omega

lemma or1_eq_of_le {n : ℤ} (h : 1 ≤ n) : or1 n = n := by
  unfold or1; split <;> omega

@[simp] lemma recalc_email (p : Player) (b : Bool) :
    (recalcPlayerWithEquipment p b).email = p.email := by
  simp [recalcPlayerWithEquipment, apply_ite Player.email]

@[simp] lemma recalc_name (p : Player) (b : Bool) :
    (recalcPlayerWithEquipment p b).name = p.name := by
  simp [recalcPlayerWithEquipment, apply_ite Player.name]

@[simp] lemma recalc_class (p : Player) (b : Bool) :
    (recalcPlayerWithEquipment p b).character_class = p.character_class := by
  simp [recalcPlayerWithEquipment, apply_ite Player.character_class]

@[simp] lemma recalc_level (p : Player) (b : Bool) :
    (recalcPlayerWithEquipment p b).level = p.level := by
  simp [recalcPlayerWithEquipment, apply_ite Player.level]

@[simp] lemma recalc_xp (p : Player) (b : Bool) :
    (recalcPlayerWithEquipment p b).xp = p.xp := by
  simp [recalcPlayerWithEquipment, apply_ite Player.xp]

@[simp] lemma recalc_x (p : Player) (b : Bool) :
    (recalcPlayerWithEquipment p b).x = p.x := by
  simp [recalcPlayerWithEquipment, apply_ite Player.x]

@[simp] lemma recalc_y (p : Player) (b : Bool) :
    (recalcPlayerWithEquipment p b).y = p.y := by
  simp [recalcPlayerWithEquipment, apply_ite Player.y]

@[simp] lemma recalc_map (p : Player) (b : Bool) :
    (recalcPlayerWithEquipment p b).map = p.map := by
  simp [recalcPlayerWithEquipment, apply_ite Player.map]

@[simp] lemma recalc_socketId (p : Player) (b : Bool) :
    (recalcPlayerWithEquipment p b).socketId = p.socketId := by
  simp [recalcPlayerWithEquipment, apply_ite Player.socketId]

@[simp] lemma recalc_isDead (p : Player) (b : Bool) :
    (recalcPlayerWithEquipment p b).isDead = p.isDead := by
  simp [recalcPlayerWithEquipment, apply_ite Player.isDead]

@[simp] lemma recalc_inventory (p : Player) (b : Bool) :
    (recalcPlayerWithEquipment p b).inventory = p.inventory := by
  simp [recalcPlayerWithEquipment, apply_ite Player.inventory]

@[simp] lemma recalc_statPoints (p : Player) (b : Bool) :
    (recalcPlayerWithEquipment p b).statPointsAvailable = p.statPointsAvailable := by
  simp [recalcPlayerWithEquipment, apply_ite Player.statPointsAvailable]

@[simp] lemma recalc_stats (p : Player) (b : Bool) :
    (recalcPlayerWithEquipment p b).stats = p.stats := by
  simp [recalcPlayerWithEquipment, apply_ite Player.stats]

@[simp] lemma recalc_lastAttackTime (p : Player) (b : Bool) :
    (recalcPlayerWithEquipment p b).lastAttackTime = p.lastAttackTime := by
  simp [recalcPlayerWithEquipment, apply_ite Player.lastAttackTime]

@[simp] lemma recalc_lastUpdate (p : Player) (b : Bool) :
    (recalcPlayerWithEquipment p b).lastUpdate = p.lastUpdate := by
  simp [recalcPlayerWithEquipment, apply_ite Player.lastUpdate]

@[simp] lemma recalc_equipment (p : Player) (b : Bool) :
    (recalcPlayerWithEquipment p b).equipment = p.equipment := by
  simp [recalcPlayerWithEquipment, apply_ite Player.equipment]

@[simp] lemma recalc_maxHp (p : Player) (b : Bool) :
    (recalcPlayerWithEquipment p b).maxHp = pipelineMaxHp p := by
  simp [recalcPlayerWithEquipment, apply_ite Player.maxHp]

@[simp] lemma recalc_attack (p : Player) (b : Bool) :
    (recalcPlayerWithEquipment p b).attack = pipelineAttack p := by
  simp [recalcPlayerWithEquipment, apply_ite Player.attack]

@[simp] lemma recalc_speed (p : Player) (b : Bool) :
    (recalcPlayerWithEquipment p b).speed = pipelineSpeed p := by
  simp [recalcPlayerWithEquipment, apply_ite Player.speed]

/-- The pipeline outputs only read class, level, stats and equipment. -/
lemma pipelineMaxHp_congr {p q : Player}
    (hc : q.character_class = p.character_class) (hl : q.level = p.level)
    (hs : q.stats = p.stats) (he : q.equipment = p.equipment) :
    pipelineMaxHp q = pipelineMaxHp p := by
  simp [pipelineMaxHp, calculateDerivedStats, calculatePlayerStats, hc, hl, hs, he]

lemma pipelineAttack_congr {p q : Player}
    (hc : q.character_class = p.character_class) (hl : q.level = p.level)
    (hs : q.stats = p.stats) (he : q.equipment = p.equipment) :
    pipelineAttack q = pipelineAttack p := by
  simp [pipelineAttack, calculateDerivedStats, calculatePlayerStats, hc, hl, hs, he]

@[simp] lemma bonusFor_nil (key : String) : bonusFor [] key = 0 := rfl

/-- With no equipment, a level of at least 1 and a non-negative VIT, the
pipeline's maxHp is at least 95 (in fact at least 120; 95 leaves slack).
Without the level and VIT bounds this fails: level −4 gives `120 − 125`,
and VIT −12 subtracts a further 130. -/
lemma pipelineMaxHp_pos {p : Player} (he : p.equipment = [])
    (hlev : 1 ≤ p.level) (hVIT : 0 ≤ p.stats.VIT) :
    (95 : ℚ) ≤ pipelineMaxHp p := by
  have hl : (1 : ℚ) ≤ (p.level : ℚ) := by exact_mod_cast hlev
  have hv : (1 : ℚ) ≤ (or1 p.stats.VIT : ℚ) := by
    exact_mod_cast one_le_or1 hVIT
  simp only [pipelineMaxHp, calculateDerivedStats, calculatePlayerStats, classBase,
    assassinBase, he, bonusFor_nil]
  split <;> (simp only [] ; nlinarith)

/-- With no equipment, a level of at least 1 and a non-negative STR, the
pipeline's attack is non-negative. -/
lemma pipelineAttack_nonneg {p : Player} (he : p.equipment = [])
    (hlev : 1 ≤ p.level) (hSTR : 0 ≤ p.stats.STR) :
    (0 : ℚ) ≤ pipelineAttack p := by
  have hl : (1 : ℚ) ≤ (p.level : ℚ) := by exact_mod_cast hlev
  have hs : (1 : ℚ) ≤ (or1 p.stats.STR : ℚ) := by
    exact_mod_cast one_le_or1 hSTR
  simp only [pipelineAttack, calculateDerivedStats, calculatePlayerStats, classBase,
    assassinBase, he, bonusFor_nil]
  split <;> (simp only [] ; nlinarith)

lemma jsRound_nonneg {q : ℚ} (h : 0 ≤ q) : (0 : ℤ) ≤ jsRound q := by
  rw [jsRound, Int.le_floor]
  push_cast
  linarith

/-- A concrete level-1 player with all attributes 1, used as a witness
input throughout. -/
def samplePlayer : Player :=
  { email := "a@x", name := "A", character_class := "assassin", level := 1
    xp := 0, x := 400, y := 400, direction := "front", state := "idle"
    map := "monster_field_1", socketId := some "s1", lastUpdate := 0
    hp := 120, maxHp := 120, attack := 15, speed := 1, isDead := false
    inventory := [], statPointsAvailable := 5, stats := ⟨1, 1, 1, 1, 1, 1⟩
    lastAttackTime := 0, equipment := [] }

/-- C9: for every class tag and every level ≥ 1 (with attributes ≥ 1, as the
data model requires), `calculateDerivedStats` computes
`maxHp = baseHp + hpPerLevel·(level−1) + 10·(VIT−1)`,
`attack = baseAttack + attackPerLevel·(level−1) + 2·(STR−1)`, and
`speed = 1 + 0.1·(AGI−1)`; every class tag resolves to the default
(assassin) class row; a level-1 player with all attributes 1 gets
`maxHp = 120` and `attack = 15`. -/
theorem claim_C9_statPipeline (p : Player) (hl : 1 ≤ p.level)
    (hV : 1 ≤ p.stats.VIT) (hS : 1 ≤ p.stats.STR) (hA : 1 ≤ p.stats.AGI) :
    ((calculateDerivedStats p).maxHp
        = (classBase p.character_class).baseHp
          + (classBase p.character_class).hpPerLevel * ((p.level : ℚ) - 1)
          + 10 * ((p.stats.VIT : ℚ) - 1)
      ∧ (calculateDerivedStats p).attack
        = (classBase p.character_class).baseAttack
          + (classBase p.character_class).attackPerLevel * ((p.level : ℚ) - 1)
          + 2 * ((p.stats.STR : ℚ) - 1)
      ∧ (calculateDerivedStats p).speed = 1 + (1/10) * ((p.stats.AGI : ℚ) - 1))
    ∧ classBase p.character_class = assassinBase
    ∧ (p.level = 1 → p.stats = ⟨1, 1, 1, 1, 1, 1⟩ →
        (calculateDerivedStats p).maxHp = 120
          ∧ (calculateDerivedStats p).attack = 15) := by
  have hcb : classBase p.character_class = assassinBase := by
    unfold classBase; split <;> rfl
  refine ⟨⟨?_, ?_, ?_⟩, hcb, ?_⟩
  · simp [calculateDerivedStats, calculatePlayerStats, or1_eq_of_le hV]
    ring
  · simp [calculateDerivedStats, calculatePlayerStats, or1_eq_of_le hS]
    ring
  · simp [calculateDerivedStats, calculatePlayerStats, or1_eq_of_le hA]
    ring
  · intro h1 hstats
    simp [calculateDerivedStats, calculatePlayerStats, hcb, h1, hstats, or1,
      assassinBase]

/-- Witness for C9 at the concrete sample player. -/
theorem claim_C9_statPipeline_witness :
    (calculateDerivedStats samplePlayer).maxHp = 120
      ∧ (calculateDerivedStats samplePlayer).attack = 15 :=
  (claim_C9_statPipeline samplePlayer (by decide) (by decide) (by decide)
      (by decide)).2.2 rfl rfl

/-! ### Leveling lemmas -/

@[simp] lemma levelUp_level (p : Player) : (levelUpPlayer p).level = p.level + 1 := by
  simp [levelUpPlayer]

@[simp] lemma levelUp_xp (p : Player) : (levelUpPlayer p).xp = p.xp := by
  simp [levelUpPlayer]

@[simp] lemma levelUp_statPoints (p : Player) :
    (levelUpPlayer p).statPointsAvailable = p.statPointsAvailable + 5 := by
  simp [levelUpPlayer]

@[simp] lemma levelUp_equipment (p : Player) :
    (levelUpPlayer p).equipment = p.equipment := by
  simp [levelUpPlayer]

@[simp] lemma levelUp_stats (p : Player) : (levelUpPlayer p).stats = p.stats := by
  simp [levelUpPlayer]

@[simp] lemma levelUp_class (p : Player) :
    (levelUpPlayer p).character_class = p.character_class := by
  simp [levelUpPlayer]

@[simp] lemma levelUp_inventory (p : Player) :
    (levelUpPlayer p).inventory = p.inventory := by
  simp [levelUpPlayer]

@[simp] lemma levelUp_isDead (p : Player) : (levelUpPlayer p).isDead = p.isDead := by
  simp [levelUpPlayer]

/-- The level-up loop only reads and writes `(level, xp)` as far as those two
fields are concerned: it agrees with the pure `drainGo`. -/
lemma giveXpGo_drainGo (fuel : ℕ) :
    ∀ p : Player,
      ((giveXpGo fuel p).level, (giveXpGo fuel p).xp) = drainGo fuel p.level p.xp := by
  induction fuel with
  | zero => intro p; simp [giveXpGo, drainGo]
  | succ fuel ih =>
    intro p
    by_cases h : 1 ≤ p.level ∧ p.level * 100 ≤ p.xp
    · simp only [giveXpGo, drainGo, if_pos h]
      rw [ih]
      simp
    · simp [giveXpGo, drainGo, if_neg h]

/-- The loop's final level is at least its starting level. -/
lemma giveXpGo_level_le (fuel : ℕ) :
    ∀ p : Player, p.level ≤ (giveXpGo fuel p).level := by
  induction fuel with
  | zero => intro p; simp [giveXpGo]
  | succ fuel ih =>
    intro p
    by_cases h : 1 ≤ p.level ∧ p.level * 100 ≤ p.xp
    · simp only [giveXpGo, if_pos h]
      have := ih (levelUpPlayer { p with xp := p.xp - p.level * 100 })
      simp at this
      omega
    · simp [giveXpGo, if_neg h]

/-- Stat points grow by exactly 5 per level gained in the loop. -/
lemma giveXpGo_statPoints (fuel : ℕ) :
    ∀ p : Player,
      (giveXpGo fuel p).statPointsAvailable
        = p.statPointsAvailable + 5 * ((giveXpGo fuel p).level - p.level) := by
  induction fuel with
  | zero => intro p; simp [giveXpGo]
  | succ fuel ih =>
    intro p
    by_cases h : 1 ≤ p.level ∧ p.level * 100 ≤ p.xp
    · simp only [giveXpGo, if_pos h]
      have hmono := giveXpGo_level_le fuel (levelUpPlayer { p with xp := p.xp - p.level * 100 })
      have := ih (levelUpPlayer { p with xp := p.xp - p.level * 100 })
      simp at this hmono
      omega
    · simp [giveXpGo, if_neg h]

/-- Unused fuel is irrelevant: any two fuels at least as large as the
current experience produce the same loop result (every iteration requires
`xp ≥ level·100 ≥ 100` and consumes that much). -/
lemma giveXpGo_fuel :
    ∀ f g : ℕ, ∀ p : Player, p.xp.toNat ≤ f → p.xp.toNat ≤ g →
      giveXpGo f p = giveXpGo g p := by
  intro f
  induction f with
  | zero =>
    intro g p hf _
    have hcond : ¬ (1 ≤ p.level ∧ p.level * 100 ≤ p.xp) := by omega
    cases g with
    | zero => rfl
    | succ g => simp [giveXpGo, if_neg hcond]
  | succ f ih =>
    intro g p hf hg
    cases g with
    | zero =>
      have hcond : ¬ (1 ≤ p.level ∧ p.level * 100 ≤ p.xp) := by omega
      simp [giveXpGo, if_neg hcond]
    | succ g =>
      by_cases h : 1 ≤ p.level ∧ p.level * 100 ≤ p.xp
      · simp only [giveXpGo, if_pos h]
        apply ih
        · simp; omega
        · simp; omega
      · simp [giveXpGo, if_neg h]

/-- Same fuel-irrelevance for the pure pair version. -/
lemma drainGo_fuel :
    ∀ f g : ℕ, ∀ l x : ℤ, x.toNat ≤ f → x.toNat ≤ g →
      drainGo f l x = drainGo g l x := by
  intro f
  induction f with
  | zero =>
    intro g l x hf _
    have hcond : ¬ (1 ≤ l ∧ l * 100 ≤ x) := by omega
    cases g with
    | zero => rfl
    | succ g => simp [drainGo, if_neg hcond]
  | succ f ih =>
    intro g l x hf hg
    cases g with
    | zero =>
      have hcond : ¬ (1 ≤ l ∧ l * 100 ≤ x) := by omega
      simp [drainGo, if_neg hcond]
    | succ g =>
      by_cases h : 1 ≤ l ∧ l * 100 ≤ x
      · simp only [drainGo, if_pos h]
        apply ih <;> omega
      · simp [drainGo, if_neg h]

/-- One-step unfolding of `drain`. -/
lemma drain_unfold (l x : ℤ) :
    drain l x = if 1 ≤ l ∧ l * 100 ≤ x then drain (l + 1) (x - l * 100) else (l, x) := by
  by_cases h : 1 ≤ l ∧ l * 100 ≤ x
  · rw [if_pos h]
    obtain ⟨hl, hx⟩ := h
    obtain ⟨k, hk⟩ : ∃ k, x.toNat = k + 1 := ⟨x.toNat - 1, by omega⟩
    show drainGo x.toNat l x = drainGo (x - l * 100).toNat (l + 1) (x - l * 100)
    rw [hk, drainGo, if_pos ⟨hl, hx⟩]
    exact drainGo_fuel k ((x - l * 100).toNat) (l + 1) (x - l * 100) (by omega) le_rfl
  · rw [if_neg h]
    show drainGo x.toNat l x = (l, x)
    cases hk : x.toNat with
    | zero => rfl
    | succ k => rw [drainGo, if_neg h]

/-- Key composition fact, fuel-bounded form: pouring `y` more experience
into a drained state continues exactly where a single combined award would
have ended. -/
lemma drain_add_aux :
    ∀ n : ℕ, ∀ l x y : ℤ, x.toNat ≤ n → 1 ≤ l → 0 ≤ y →
      drain (drain l x).1 ((drain l x).2 + y) = drain l (x + y) := by
  intro n
  induction n with
  | zero =>
    intro l x y hn hl hy
    have h : ¬ (1 ≤ l ∧ l * 100 ≤ x) := by omega
    rw [drain_unfold l x, if_neg h]
  | succ n ih =>
    intro l x y hn hl hy
    by_cases h : 1 ≤ l ∧ l * 100 ≤ x
    · rw [drain_unfold l x, if_pos h]
      rw [ih (l + 1) (x - l * 100) y (by omega) (by omega) hy]
      rw [drain_unfold l (x + y), if_pos ⟨hl, by omega⟩]
      congr 1
      ring
    · rw [drain_unfold l x, if_neg h]

/-- Key composition fact: pouring `y` more experience into a drained state
continues exactly where a single combined award would have ended. -/
lemma drain_add (x l y : ℤ) (hl : 1 ≤ l) (hy : 0 ≤ y) :
    drain (drain l x).1 ((drain l x).2 + y) = drain l (x + y) :=
  drain_add_aux x.toNat l x y le_rfl hl hy

/-- Characterisation of `giveXp` in terms of `drain`. -/
lemma giveXp_drain (p : Player) (X : ℕ) :
    ((giveXp p X).level, (giveXp p X).xp) = drain p.level (p.xp + X) := by
  rw [giveXp, drain]
  exact giveXpGo_drainGo (p.xp + X).toNat { p with xp := p.xp + X }

/-- C5: awarding X then Y experience yields the same final level and the
same final xp remainder as awarding X + Y in one call, for any non-negative
X, Y (the only internal caller passes the monster table's XP rewards, which
are naturals; `1 ≤ level` is the well-formedness the server itself
maintains). -/
theorem claim_C5_giveXpCompose (p : Player) (X Y : ℕ) (hl : 1 ≤ p.level) :
    (giveXp (giveXp p X) Y).level = (giveXp p (X + Y)).level
      ∧ (giveXp (giveXp p X) Y).xp = (giveXp p (X + Y)).xp := by
  have h1 := giveXp_drain p X
  have h2 := giveXp_drain (giveXp p X) Y
  have h3 := giveXp_drain p (X + Y)
  have hL : (giveXp p X).level = (drain p.level (p.xp + X)).1 := congrArg Prod.fst h1
  have hX : (giveXp p X).xp = (drain p.level (p.xp + X)).2 := congrArg Prod.snd h1
  have hpair : ((giveXp (giveXp p X) Y).level, (giveXp (giveXp p X) Y).xp)
      = ((giveXp p (X + Y)).level, (giveXp p (X + Y)).xp) := by
    calc ((giveXp (giveXp p X) Y).level, (giveXp (giveXp p X) Y).xp)
        = drain (giveXp p X).level ((giveXp p X).xp + Y) := h2
      _ = drain (drain p.level (p.xp + X)).1 ((drain p.level (p.xp + X)).2 + Y) := by
          rw [hL, hX]
      _ = drain p.level (p.xp + X + Y) :=
          drain_add (p.xp + X) p.level Y hl (by exact_mod_cast Nat.zero_le Y)
      _ = drain p.level (p.xp + (X + Y)) := by
          congr 1
          push_cast
          ring
      _ = ((giveXp p (X + Y)).level, (giveXp p (X + Y)).xp) := h3.symm
  exact ⟨congrArg Prod.fst hpair, congrArg Prod.snd hpair⟩

/-- Witness for C5 at the sample player with awards 250 and 130. -/
theorem claim_C5_giveXpCompose_witness :
    (giveXp (giveXp samplePlayer 250) 130).level
        = (giveXp samplePlayer (250 + 130)).level
      ∧ (giveXp (giveXp samplePlayer 250) 130).xp
        = (giveXp samplePlayer (250 + 130)).xp :=
  claim_C5_giveXpCompose samplePlayer 250 130 (by decide)

/-- C4 fails on the code: a single 250 XP award to a level-1 player with 0
XP does not end at level 3 with 50 XP and +10 stat points — the level-2
threshold is `2 × 100 = 200`, not 100, so only one level-up fires. -/
theorem claim_C4_counterexample :
    ¬ ((giveXp samplePlayer 250).level = 3 ∧ (giveXp samplePlayer 250).xp = 50
        ∧ (giveXp samplePlayer 250).statPointsAvailable
            = samplePlayer.statPointsAvailable + 10) := by
  decide

/-- C4 amended: a 250 XP award to any level-1, 0-XP player ends at level 2
with 150 XP remaining (one level-up consuming the level-1 threshold of
100), and stat points increase by 5. -/
theorem claim_C4_giveXp250 (p : Player) (h1 : p.level = 1) (h0 : p.xp = 0) :
    (giveXp p 250).level = 2 ∧ (giveXp p 250).xp = 150
      ∧ (giveXp p 250).statPointsAvailable = p.statPointsAvailable + 5 := by
  have h := giveXp_drain p 250
  rw [h1, h0] at h
  have hd : drain 1 (0 + ((250 : ℕ) : ℤ)) = (2, 150) := by decide
  rw [hd] at h
  have hL : (giveXp p 250).level = 2 := congrArg Prod.fst h
  have hX : (giveXp p 250).xp = 150 := congrArg Prod.snd h
  refine ⟨hL, hX, ?_⟩
  have hsp := giveXpGo_statPoints ((p.xp + ((250 : ℕ) : ℤ)).toNat)
    { p with xp := p.xp + ((250 : ℕ) : ℤ) }
  simp only [giveXp] at hL ⊢
  simp only at hsp
  rw [hsp, hL, h1]
  norm_num

/-- Witness for the amended C4 at the concrete sample player. -/
theorem claim_C4_giveXp250_witness :
    (giveXp samplePlayer 250).level = 2 ∧ (giveXp samplePlayer 250).xp = 150
      ∧ (giveXp samplePlayer 250).statPointsAvailable
          = samplePlayer.statPointsAvailable + 5 :=
  claim_C4_giveXp250 samplePlayer rfl rfl

/-- A player mid-allocation: one point just moved into VIT (so the pipeline
now yields maxHp 130) while `hp = 60` and the stored `maxHp` is still the
pre-allocation 120.  The spec's preserve-ratio rule would rescale
`60/120` against 130 to get 65. -/
def c2Player : Player := { samplePlayer with hp := 60, stats := ⟨1, 1, 2, 1, 1, 1⟩ }

/-- C2 fails on the code: `recalcPlayerWithEquipment` computes the "old"
ratio only after `player.maxHp` has been overwritten with the new maximum,
so the recomputed hp is `round(newMax * hp/newMax) = hp` — the absolute hp
is preserved (60), not the hp/maxHp ratio (which would give
`round(130 * 60/120) = 65`). -/
theorem claim_C2_recalcKeepsAbsoluteHp :
    (recalcPlayerWithEquipment c2Player true).maxHp = 130
      ∧ (recalcPlayerWithEquipment c2Player true).hp = 60
      ∧ (jsRound ((130 : ℚ) * (60 / 120)) : ℚ) = 65 := by
  refine ⟨?_, ?_, ?_⟩ <;>
    norm_num [recalcPlayerWithEquipment, pipelineMaxHp, pipelineAttack,
      pipelineSpeed, calculateDerivedStats, calculatePlayerStats, classBase,
      assassinBase, or1, bonusFor, c2Player, samplePlayer, jsRound]

/-! ### C6: AOI broadcast -/

/-- The squared-distance test agrees with the source's
`Math.sqrt(dx² + dy²) <= 800` comparison. -/
lemma inAOIRange_iff (x1 y1 x2 y2 : ℚ) :
    inAOIRange x1 y1 x2 y2 = true ↔
      Real.sqrt (((x2 - x1 : ℚ) : ℝ) ^ 2 + ((y2 - y1 : ℚ) : ℝ) ^ 2) ≤ 800 := by
  rw [inAOIRange, decide_eq_true_iff, Real.sqrt_le_left (by norm_num : (0:ℝ) ≤ 800)]
  rw [AOI_RADIUS]
  constructor
  · intro h; exact_mod_cast h
  · intro h; exact_mod_cast h

/-- C6: `broadcastToAOI` delivers to exactly the players that are in the
map's membership index, are not the origin, have an active connection, and
sit within Euclidean distance 800 of the event origin. -/
theorem claim_C6_broadcastToAOI (w : World) (origin : String) (x y : ℚ)
    (mapId other : String) :
    other ∈ broadcastToAOI w origin x y mapId ↔
      (other ∈ (alookup w.mapPlayers mapId).getD [] ∧ other ≠ origin ∧
        ∃ p, alookup w.players other = some p ∧ p.socketId.isSome = true ∧
          Real.sqrt (((p.x - x : ℚ) : ℝ) ^ 2 + ((p.y - y : ℚ) : ℝ) ^ 2) ≤ 800) := by
  rw [broadcastToAOI, List.mem_filter]
  constructor
  · rintro ⟨hmem, hf⟩
    by_cases he : other = origin
    · rw [if_pos he] at hf; exact Bool.noConfusion hf
    · rw [if_neg he] at hf
      refine ⟨hmem, he, ?_⟩
      cases hlk : alookup w.players other with
      | none => rw [hlk] at hf; exact Bool.noConfusion hf
      | some p =>
        rw [hlk] at hf
        have hf' : (p.socketId.isSome && inAOIRange x y p.x p.y) = true := hf
        rw [Bool.and_eq_true] at hf'
        exact ⟨p, rfl, hf'.1, (inAOIRange_iff x y p.x p.y).mp hf'.2⟩
  · rintro ⟨hmem, hne, p, hlk, hsock, hdist⟩
    refine ⟨hmem, ?_⟩
    rw [if_neg hne, hlk]
    show (p.socketId.isSome && inAOIRange x y p.x p.y) = true
    rw [hsock, (inAOIRange_iff x y p.x p.y).mpr hdist]
    rfl

/-! ### Association-list lemmas -/

lemma alookup_amodify_self {α : Type} (l : List (String × α)) (k : String)
    (f : α → α) : alookup (amodify l k f) k = (alookup l k).map f := by
  induction l with
  | nil => rfl
  | cons kv rest ih =>
    by_cases h : kv.1 = k
    · simp [amodify, alookup, h]
    · simp only [amodify, List.map_cons, if_neg h]
      simp only [alookup, if_neg h]
      exact ih

lemma alookup_amodify_ne {α : Type} (l : List (String × α)) (k e : String)
    (f : α → α) (hne : e ≠ k) : alookup (amodify l k f) e = alookup l e := by
  induction l with
  | nil => rfl
  | cons kv rest ih =>
    obtain ⟨k1, v1⟩ := kv
    by_cases h : k1 = k
    · have h2 : ¬ k1 = e := fun hh => hne (hh.symm.trans h)
      simp only [amodify, List.map_cons] at *
      rw [if_pos h]
      show alookup ((k1, f v1) :: List.map _ rest) e = _
      rw [alookup, alookup, if_neg h2, if_neg h2]
      exact ih
    · simp only [amodify, List.map_cons] at *
      rw [if_neg h]
      rw [alookup, alookup]
      by_cases h3 : k1 = e
      · rw [if_pos h3, if_pos h3]
      · rw [if_neg h3, if_neg h3]
        exact ih

lemma alookup_isSome_amodify {α : Type} (l : List (String × α)) (k e : String)
    (f : α → α) :
    (alookup (amodify l k f) e).isSome = (alookup l e).isSome := by
  by_cases h : e = k
  · subst h; rw [alookup_amodify_self]; cases alookup l e <;> rfl
  · rw [alookup_amodify_ne l k e f h]

lemma amodify_length {α : Type} (l : List (String × α)) (k : String) (f : α → α) :
    (amodify l k f).length = l.length := by
  simp [amodify]

lemma alookup_append_right {α : Type} (l : List (String × α)) (k : String)
    (v : α) (h : alookup l k = none) : alookup (l ++ [(k, v)]) k = some v := by
  induction l with
  | nil => simp [alookup]
  | cons kv rest ih =>
    by_cases hk : kv.1 = k
    · rw [alookup, if_pos hk] at h; cases h
    · rw [alookup, if_neg hk] at h
      simp only [List.cons_append, alookup, if_neg hk]
      exact ih h

lemma alookup_append_ne {α : Type} (l : List (String × α)) (k e : String)
    (v : α) (hne : e ≠ k) : alookup (l ++ [(k, v)]) e = alookup l e := by
  induction l with
  | nil =>
    show alookup [(k, v)] e = none
    rw [alookup, if_neg (fun hh : k = e => hne hh.symm)]
    rfl
  | cons kv rest ih =>
    obtain ⟨k1, v1⟩ := kv
    rw [List.cons_append, alookup, alookup]
    by_cases hk : k1 = e
    · rw [if_pos hk, if_pos hk]
    · rw [if_neg hk, if_neg hk]
      exact ih

lemma alookup_mem {α : Type} {l : List (String × α)} {k : String} {v : α}
    (h : alookup l k = some v) : (k, v) ∈ l := by
  induction l with
  | nil => cases h
  | cons kv rest ih =>
    obtain ⟨k1, v1⟩ := kv
    by_cases hk : k1 = k
    · rw [alookup, if_pos hk] at h
      have hv := Option.some.inj h
      rw [← hk, ← hv]
      exact List.mem_cons_self _ _
    · rw [alookup, if_neg hk] at h
      exact List.mem_cons_of_mem _ (ih h)

/-- Every value in a modified table either was in the table or is `f` of a
value that was. -/
lemma amodify_forall {α : Type} {l : List (String × α)} {P : α → Prop}
    (hl : ∀ pr ∈ l, P pr.2) {k : String} {f : α → α}
    (hf : ∀ a, P a → P (f a)) : ∀ pr ∈ amodify l k f, P pr.2 := by
  intro pr hpr
  rw [amodify, List.mem_map] at hpr
  obtain ⟨q, hq, hqe⟩ := hpr
  by_cases h : q.1 = k
  · rw [if_pos h] at hqe
    rw [← hqe]
    exact hf q.2 (hl q hq)
  · rw [if_neg h] at hqe
    rw [← hqe]
    exact hl q hq

lemma aupsert_forall {α : Type} {l : List (String × α)} {P : α → Prop}
    (hl : ∀ pr ∈ l, P pr.2) {k : String} {v : α} (hv : P v) :
    ∀ pr ∈ aupsert l k v, P pr.2 := by
  intro pr hpr
  rw [aupsert] at hpr
  by_cases h : (alookup l k).isSome
  · rw [if_pos h] at hpr
    exact amodify_forall hl (fun _ _ => hv) pr hpr
  · rw [if_neg h] at hpr
    rcases List.mem_append.mp hpr with h1 | h1
    · exact hl pr h1
    · rw [List.mem_singleton] at h1
      rw [h1]
      exact hv

lemma aremove_forall {α : Type} {l : List (String × α)} {P : α → Prop}
    (hl : ∀ pr ∈ l, P pr.2) (k : String) : ∀ pr ∈ aremove l k, P pr.2 :=
  fun pr hpr => hl pr (List.mem_of_mem_filter hpr)

lemma foldl_aremove_forall {α : Type} {P : α → Prop} (ids : List String) :
    ∀ l : List (String × α), (∀ pr ∈ l, P pr.2) →
      ∀ pr ∈ ids.foldl (fun acc mid => aremove acc mid) l, P pr.2 := by
  induction ids with
  | nil => intro l hl; exact hl
  | cons id rest ih =>
    intro l hl
    exact ih (aremove l id) (aremove_forall hl id)

lemma addToMapIndex_mem (mp : List (String × List String)) (mapId id : String) :
    id ∈ (alookup (addToMapIndex mp mapId id) mapId).getD [] := by
  rw [addToMapIndex]
  cases h : alookup mp mapId with
  | none =>
    rw [alookup_append_right mp mapId [id] h]
    simp
  | some l =>
    rw [alookup_amodify_self, h]
    simp [addMem]
    split_ifs with hmem
    · exact hmem
    · simp

/-! ### Frame lemmas for monster spawning -/

lemma spawnOne_frame (w : World) (mapId : String) (cfg : SpawnConfig)
    (r : SpawnRoll) (now : ℕ) :
    (spawnOne w mapId cfg r now).1.players = w.players
      ∧ (spawnOne w mapId cfg r now).1.mapPlayers = w.mapPlayers := by
  refine ⟨?_, ?_⟩ <;>
  · dsimp only [spawnOne]
    split_ifs
    · rfl
    · cases cfg.types.get? (r.tyIdx % cfg.types.length) with
      | none => rfl
      | some ty =>
        dsimp only
        cases monsterStats ty with
        | none => rfl
        | some st => rfl

lemma spawnMonsters_frame (w : World) (mapId : String) (rolls : List SpawnRoll)
    (now : ℕ) :
    (spawnMonsters w mapId rolls now).1.players = w.players
      ∧ (spawnMonsters w mapId rolls now).1.mapPlayers = w.mapPlayers := by
  unfold spawnMonsters
  cases monsterSpawns mapId with
  | none => exact ⟨rfl, rfl⟩
  | some cfg =>
    suffices h : ∀ acc : World × List Ev,
        (rolls.foldl (fun acc r =>
            let res := spawnOne acc.1 mapId cfg r now
            (res.1, acc.2 ++ res.2)) acc).1.players = acc.1.players
        ∧ (rolls.foldl (fun acc r =>
            let res := spawnOne acc.1 mapId cfg r now
            (res.1, acc.2 ++ res.2)) acc).1.mapPlayers = acc.1.mapPlayers by
      exact h (w, [])
    induction rolls with
    | nil => intro acc; exact ⟨rfl, rfl⟩
    | cons r rest ih =>
      intro acc
      rw [List.foldl_cons]
      refine ⟨?_, ?_⟩
      · rw [(ih _).1]
        exact (spawnOne_frame acc.1 mapId cfg r now).1
      · rw [(ih _).2]
        exact (spawnOne_frame acc.1 mapId cfg r now).2

/-! ### C7: rejoin reuses the existing record -/

/-- C7: a `player:join` for an identity already in the players table never
creates a second record (key-presence and table length are unchanged), other
players' records are untouched, and the existing record keeps its xp, level,
inventory, allocated stats and unspent stat points — only the connection
handle, position, map and pipeline-recomputed derived stats are refreshed;
the player is (re-)registered in the destination map's membership index. -/
theorem claim_C7_rejoinFrame (w : World) (email name character_class : String)
    (level xpIn : ℤ) (x y : ℚ) (map sockId : String) (now : ℕ)
    (rolls : List SpawnRoll) (p : Player)
    (hplayer : alookup w.players email = some p) :
    (∀ e, (alookup (joinHandler w email name character_class level xpIn x y map
          sockId now rolls).1.players e).isSome = (alookup w.players e).isSome)
    ∧ (joinHandler w email name character_class level xpIn x y map
          sockId now rolls).1.players.length = w.players.length
    ∧ (∀ e, e ≠ email → alookup (joinHandler w email name character_class level
          xpIn x y map sockId now rolls).1.players e = alookup w.players e)
    ∧ (∃ p', alookup (joinHandler w email name character_class level xpIn x y map
          sockId now rolls).1.players email = some p'
        ∧ p'.xp = p.xp ∧ p'.level = p.level ∧ p'.inventory = p.inventory
        ∧ p'.stats = p.stats ∧ p'.statPointsAvailable = p.statPointsAvailable
        ∧ p'.socketId = some sockId ∧ p'.x = x ∧ p'.y = y ∧ p'.map = map
        ∧ p'.maxHp = pipelineMaxHp p' ∧ p'.attack = pipelineAttack p')
    ∧ email ∈ (alookup (joinHandler w email name character_class level xpIn x y
          map sockId now rolls).1.mapPlayers map).getD [] := by
  have hunfold : joinHandler w email name character_class level xpIn x y map
      sockId now rolls
      = (let p1 := recalcPlayerWithEquipment
          { p with socketId := some sockId, x := x, y := y, map := map,
                   lastUpdate := now } true
         let w1 : World := { w with
           players := amodify w.players email (fun _ => p1)
           mapPlayers := addToMapIndex w.mapPlayers map email }
         let res := spawnMonsters w1 map rolls now
         (res.1, [Ev.xpUpdated email p1.xp p1.level, Ev.statsInitialized email]
           ++ res.2)) := by
    rw [joinHandler, hplayer]
  set pmid : Player :=
    { p with socketId := some sockId, x := x, y := y, map := map, lastUpdate := now }
    with hpmid
  set p1 : Player := recalcPlayerWithEquipment pmid true with hp1
  set w1 : World := { w with
    players := amodify w.players email (fun _ => p1)
    mapPlayers := addToMapIndex w.mapPlayers map email } with hw1
  have hplayers : (joinHandler w email name character_class level xpIn x y map
      sockId now rolls).1.players = amodify w.players email (fun _ => p1) := by
    rw [hunfold]
    exact (spawnMonsters_frame w1 map rolls now).1
  have hmapPlayers : (joinHandler w email name character_class level xpIn x y map
      sockId now rolls).1.mapPlayers = addToMapIndex w.mapPlayers map email := by
    rw [hunfold]
    exact (spawnMonsters_frame w1 map rolls now).2
  refine ⟨?_, ?_, ?_, ?_, ?_⟩
  · intro e
    rw [hplayers]
    exact alookup_isSome_amodify w.players email e _
  · rw [hplayers]
    exact amodify_length w.players email _
  · intro e hne
    rw [hplayers]
    exact alookup_amodify_ne w.players email e _ hne
  · refine ⟨p1, ?_, ?_, ?_, ?_, ?_, ?_, ?_, ?_, ?_, ?_, ?_, ?_⟩
    · rw [hplayers, alookup_amodify_self, hplayer]
      rfl
    · rw [hp1]; simp [hpmid]
    · rw [hp1]; simp [hpmid]
    · rw [hp1]; simp [hpmid]
    · rw [hp1]; simp [hpmid]
    · rw [hp1]; simp [hpmid]
    · rw [hp1]; simp [hpmid]
    · rw [hp1]; simp [hpmid]
    · rw [hp1]; simp [hpmid]
    · rw [hp1]; simp [hpmid]
    · rw [hp1, recalc_maxHp]
      exact (pipelineMaxHp_congr (by simp) (by simp) (by simp) (by simp)).symm
    · rw [hp1, recalc_attack]
      exact (pipelineAttack_congr (by simp) (by simp) (by simp) (by simp)).symm
  · rw [hmapPlayers]
    exact addToMapIndex_mem w.mapPlayers map email

/-- A concrete world holding only the sample player, registered in
`monster_field_1`. -/
def w7 : World :=
  { players := [("a@x", samplePlayer)]
    mapPlayers := [("monster_field_1", ["a@x"])]
    monsters := []
    mapMonsters := [] }

/-- Witness for C7: the sample player rejoins `town_1` on a new socket. -/
theorem claim_C7_rejoinFrame_witness :
    alookup w7.players "a@x" = some samplePlayer
    ∧ (joinHandler w7 "a@x" "A" "assassin" 1 0 10 20 "town_1"
          "s2" 99 []).1.players.length = w7.players.length
    ∧ "a@x" ∈ (alookup (joinHandler w7 "a@x" "A" "assassin" 1 0 10 20 "town_1"
          "s2" 99 []).1.mapPlayers "town_1").getD [] :=
  ⟨rfl,
   (claim_C7_rejoinFrame w7 "a@x" "A" "assassin" 1 0 10 20 "town_1" "s2" 99
     [] samplePlayer rfl).2.1,
   (claim_C7_rejoinFrame w7 "a@x" "A" "assassin" 1 0 10 20 "town_1" "s2" 99
     [] samplePlayer rfl).2.2.2.2⟩

/-! ### C8 and C10: PvP attack rejection paths -/

/-- Common shape of every post-cooldown drop path of `player:pvpAttack`:
only the attacker's `lastAttackTime` is written, nothing is emitted. -/
lemma pvpAttackHandler_drop (w : World) (a t : String) (now : ℕ) (critRoll : ℚ)
    (pa : Player) (ha : alookup w.players a = some pa) (hdead : pa.isDead = false)
    (hcool : ¬ (now - pa.lastAttackTime < 1000))
    (hdrop : ∀ pt,
      alookup (pupdate w a (fun q => { q with lastAttackTime := now })).players t
          = some pt →
        pt.isDead = true ∨ pa.map ≠ "pvp_arena" ∨ pt.map ≠ "pvp_arena") :
    pvpAttackHandler w a t now critRoll
      = (pupdate w a (fun q => { q with lastAttackTime := now }), []) := by
  rw [pvpAttackHandler, ha]
  dsimp only
  rw [if_neg (by simp [hdead]), if_neg hcool]
  cases hlt : alookup (pupdate w a (fun q => { q with lastAttackTime := now })).players t with
  | none => rfl
  | some pt =>
    dsimp only
    rcases hdrop pt hlt with h | h
    · rw [if_pos h]
    · by_cases hd2 : pt.isDead = true
      · rw [if_pos hd2]
      · rw [if_neg hd2, if_pos h]

/-- Looking up any player in the lastAttackTime-updated world preserves hp. -/
lemma pupdate_lastAttack_hp (w : World) (a : String) (now : ℕ) (e : String)
    (q : Player) (hq : alookup w.players e = some q) :
    ∃ q', alookup (pupdate w a (fun r => { r with lastAttackTime := now })).players e
        = some q' ∧ q'.hp = q.hp := by
  by_cases he : e = a
  · subst he
    refine ⟨{ q with lastAttackTime := now }, ?_, rfl⟩
    rw [pupdate, alookup_amodify_self, hq]
    rfl
  · exact ⟨q, by rw [pupdate, alookup_amodify_ne w.players a e _ he]; exact hq, rfl⟩

/-- C8: a `player:pvpAttack` is rejected — no player's hp changes and no
events are emitted — whenever the attacker is still inside the 1-second
cooldown, or the attacker is outside the PvP arena, or the target is
outside the PvP arena. -/
theorem claim_C8_pvpRejected (w : World) (a t : String) (now : ℕ) (critRoll : ℚ)
    (hcond :
      (∀ pa, alookup w.players a = some pa → now - pa.lastAttackTime < 1000)
      ∨ (∀ pa, alookup w.players a = some pa → pa.map ≠ "pvp_arena")
      ∨ (∀ pt, alookup w.players t = some pt → pt.map ≠ "pvp_arena")) :
    (∀ e q, alookup w.players e = some q →
        ∃ q', alookup (pvpAttackHandler w a t now critRoll).1.players e = some q'
          ∧ q'.hp = q.hp)
      ∧ (pvpAttackHandler w a t now critRoll).2 = [] := by
  cases ha : alookup w.players a with
  | none =>
    have hres : pvpAttackHandler w a t now critRoll = (w, []) := by
      rw [pvpAttackHandler, ha]
    rw [hres]
    exact ⟨fun e q hq => ⟨q, hq, rfl⟩, rfl⟩
  | some pa =>
    by_cases hdead : pa.isDead = true
    · have hres : pvpAttackHandler w a t now critRoll = (w, []) := by
        rw [pvpAttackHandler, ha]
        dsimp only
        rw [if_pos hdead]
      rw [hres]
      exact ⟨fun e q hq => ⟨q, hq, rfl⟩, rfl⟩
    · by_cases hcool : now - pa.lastAttackTime < 1000
      · have hres : pvpAttackHandler w a t now critRoll = (w, []) := by
          rw [pvpAttackHandler, ha]
          dsimp only
          rw [if_neg hdead, if_pos hcool]
        rw [hres]
        exact ⟨fun e q hq => ⟨q, hq, rfl⟩, rfl⟩
      · have hmap : pa.map ≠ "pvp_arena"
            ∨ (∀ pt, alookup w.players t = some pt → pt.map ≠ "pvp_arena") := by
          rcases hcond with h | h | h
          · exact absurd (h pa ha) hcool
          · exact Or.inl (h pa ha)
          · exact Or.inr h
        have hdrop : ∀ pt,
            alookup (pupdate w a (fun q => { q with lastAttackTime := now })).players t
                = some pt →
              pt.isDead = true ∨ pa.map ≠ "pvp_arena" ∨ pt.map ≠ "pvp_arena" := by
          intro pt hpt
          rcases hmap with h | h
          · exact Or.inr (Or.inl h)
          · by_cases hta : t = a
            · subst hta
              rw [pupdate, alookup_amodify_self, ha] at hpt
              have hpt' : pt = { pa with lastAttackTime := now } :=
                (Option.some.inj hpt).symm
              refine Or.inr (Or.inl ?_)
              have := h pa ha
              rw [hpt'] at *
              exact this
            · rw [pupdate, alookup_amodify_ne w.players a t _ hta] at hpt
              exact Or.inr (Or.inr (h pt hpt))
        have hres := pvpAttackHandler_drop w a t now critRoll pa ha
          (Bool.not_eq_true pa.isDead ▸ hdead) hcool hdrop
        rw [hres]
        exact ⟨fun e q hq => pupdate_lastAttack_hp w a now e q hq, rfl⟩

/-- C10: a `player:pvpAttack` that passes the cooldown check but is then
dropped (unknown target, dead target, or either party outside the PvP
arena) still writes the attacker's `lastAttackTime := now` — consuming the
full cooldown — while changing nothing else and emitting nothing. -/
theorem claim_C10_failedPvpConsumesCooldown (w : World) (a t : String)
    (now : ℕ) (critRoll : ℚ) (pa : Player)
    (ha : alookup w.players a = some pa) (hdead : pa.isDead = false)
    (hcool : ¬ (now - pa.lastAttackTime < 1000))
    (hdrop :
      alookup w.players t = none
        ∨ (∃ pt, alookup w.players t = some pt
            ∧ (pt.isDead = true ∨ pa.map ≠ "pvp_arena" ∨ pt.map ≠ "pvp_arena"))) :
    pvpAttackHandler w a t now critRoll
      = (pupdate w a (fun q => { q with lastAttackTime := now }), []) := by
  rcases hdrop with hnone | ⟨pt, hpt, hconds⟩
  · have hta : ¬ t = a := fun h => by rw [h, ha] at hnone; cases hnone
    rw [pvpAttackHandler, ha]
    dsimp only
    rw [if_neg (by simp [hdead]), if_neg hcool]
    have : alookup (pupdate w a (fun q => { q with lastAttackTime := now })).players t
        = none := by
      rw [pupdate, alookup_amodify_ne w.players a t _ hta]
      exact hnone
    rw [this]
  · apply pvpAttackHandler_drop w a t now critRoll pa ha hdead hcool
    intro pt' hpt'
    by_cases hta : t = a
    · subst hta
      rw [hpt, Option.some.injEq] at ha
      rw [pupdate, alookup_amodify_self, hpt] at hpt'
      have hpt'' : pt' = { pt with lastAttackTime := now } :=
        (Option.some.inj hpt').symm
      rcases hconds with h | h | h
      · exact Or.inl (by rw [hpt'']; exact h)
      · exact Or.inr (Or.inl h)
      · exact Or.inr (Or.inl (by rw [← ha]; exact h))
    · rw [pupdate, alookup_amodify_ne w.players a t _ hta, hpt,
        Option.some.injEq] at hpt'
      rcases hconds with h | h | h
      · exact Or.inl (by rw [← hpt']; exact h)
      · exact Or.inr (Or.inl h)
      · exact Or.inr (Or.inr (by rw [← hpt']; exact h))

/-- Witness for C8: the sample player (in `monster_field_1`) attacks an
unknown target; nothing changes and nothing is emitted. -/
theorem claim_C8_pvpRejected_witness :
    (∃ q', alookup (pvpAttackHandler w7 "a@x" "b@x" 5000 0).1.players "a@x"
        = some q' ∧ q'.hp = samplePlayer.hp)
      ∧ (pvpAttackHandler w7 "a@x" "b@x" 5000 0).2 = [] := by
  have h := claim_C8_pvpRejected w7 "a@x" "b@x" 5000 0
    (Or.inr (Or.inl (fun pa hpa => by
      have h2 : some samplePlayer = some pa := hpa
      rw [← Option.some.inj h2]
      decide)))
  exact ⟨h.1 "a@x" samplePlayer rfl, h.2⟩

/-- The sample player relocated into the PvP arena. -/
def pvpPlayer : Player := { samplePlayer with map := "pvp_arena", x := 500, y := 500 }

/-- A one-player world inside the PvP arena. -/
def w10 : World :=
  { players := [("a@x", pvpPlayer)]
    mapPlayers := [("pvp_arena", ["a@x"])]
    monsters := []
    mapMonsters := [] }

/-- Witness for C10: an in-arena attacker, off cooldown, attacks an unknown
target; only the attacker's lastAttackTime is written. -/
theorem claim_C10_failedPvpConsumesCooldown_witness :
    pvpAttackHandler w10 "a@x" "b@x" 5000 0
      = (pupdate w10 "a@x" (fun q => { q with lastAttackTime := 5000 }), []) :=
  claim_C10_failedPvpConsumesCooldown w10 "a@x" "b@x" 5000 0 pvpPlayer rfl rfl
    (by decide) (Or.inl rfl)

/-! ### Monster-table frame lemmas and hp-nonnegativity -/

/-- Well-formedness of a monster record: non-negative hp, maxHp, attack. -/
def MonsterOk (m : Monster) : Prop := 0 ≤ m.hp ∧ 0 ≤ m.maxHp ∧ 0 ≤ m.attack

/-- All monsters in the world are well-formed. -/
def MonstersOk (w : World) : Prop := ∀ mr ∈ w.monsters, MonsterOk mr.2

lemma handlePlayerDeath_monsters (w : World) (e : String) :
    (handlePlayerDeath w e).1.monsters = w.monsters := by
  rw [handlePlayerDeath]
  cases alookup w.players e with
  | none => rfl
  | some p =>
    dsimp only
    split_ifs <;> rfl

lemma handlePvPDeath_monsters (w : World) (e : String) :
    (handlePvPDeath w e).1.monsters = w.monsters := by
  rw [handlePvPDeath]
  cases alookup w.players e with
  | none => rfl
  | some p =>
    dsimp only
    split_ifs <;> rfl

lemma reviveDefaultFire_monsters (w : World) (e : String) :
    (reviveDefaultFire w e).1.monsters = w.monsters := by
  rw [reviveDefaultFire]
  cases alookup w.players e with
  | none => rfl
  | some p => rfl

lemma revivePvpFire_monsters (w : World) (e : String) :
    (revivePvpFire w e).1.monsters = w.monsters := by
  rw [revivePvpFire]
  cases alookup w.players e with
  | none => rfl
  | some p => rfl

lemma playerHitHandler_monsters (w : World) (e : String) (d : ℚ)
    (ae : Option String) : (playerHitHandler w e d ae).1.monsters = w.monsters := by
  rw [playerHitHandler.eq_def]
  repeat' split
  all_goals dsimp only
  all_goals first
    | rfl
    | (rw [handlePlayerDeath_monsters]; try rfl)
    | (split_ifs <;> first | rfl | (rw [handlePlayerDeath_monsters]; try rfl))

lemma monsterAttackPlayer_monsters (w : World) (m : Monster) (t : String) :
    (monsterAttackPlayer w m t).1.monsters = w.monsters := by
  rw [monsterAttackPlayer.eq_def]
  repeat' split
  all_goals dsimp only
  all_goals first
    | rfl
    | (rw [handlePlayerDeath_monsters]; try rfl)
    | (split_ifs <;> first | rfl | (rw [handlePlayerDeath_monsters]; try rfl))

lemma pvpAttackHandler_monsters (w : World) (a t : String) (now : ℕ) (roll : ℚ) :
    (pvpAttackHandler w a t now roll).1.monsters = w.monsters := by
  rw [pvpAttackHandler.eq_def]
  cases alookup w.players a with
  | none => rfl
  | some pa =>
    dsimp only
    cases alookup (pupdate w a fun q => { q with lastAttackTime := now }).players t with
    | none => split_ifs <;> rfl
    | some pt =>
      dsimp only
      split_ifs <;> first | rfl | (rw [handlePvPDeath_monsters]; try rfl)

lemma allocateStatHandler_monsters (w : World) (e st : String) (pts : ℤ) :
    (allocateStatHandler w e st pts).1.monsters = w.monsters := by
  rw [allocateStatHandler]
  cases alookup w.players e with
  | none => rfl
  | some p =>
    dsimp only
    split_ifs <;> rfl

lemma moveHandler_monsters (w : World) (e : String) (x y : ℚ) (d st : String)
    (now : ℕ) : (moveHandler w e x y d st now).1.monsters = w.monsters := by
  rw [moveHandler]
  cases alookup w.players e with
  | none => rfl
  | some p =>
    dsimp only
    split_ifs <;> rfl

/-- Each `MONSTER_STATS` row has non-negative hp and attack. -/
lemma monsterStats_nonneg (t : String) (st : MonsterStat)
    (h : monsterStats t = some st) : 0 ≤ st.hp ∧ 0 ≤ st.attack := by
  rw [monsterStats] at h
  split_ifs at h <;>
    (rw [← Option.some.inj h]; exact ⟨by norm_num, by norm_num⟩)

lemma mkMonster_ok (mid ty mapId : String) (x y : ℚ) (st : MonsterStat) (now : ℕ)
    (hhp : 0 ≤ st.hp) (hatk : 0 ≤ st.attack) :
    MonsterOk (mkMonster mid ty mapId x y st now) :=
  ⟨hhp, hhp, hatk⟩

lemma spawnOne_monstersOk {w : World} (hw : MonstersOk w) (mapId : String)
    (cfg : SpawnConfig) (r : SpawnRoll) (now : ℕ) :
    MonstersOk (spawnOne w mapId cfg r now).1 := by
  rw [MonstersOk]
  dsimp only [spawnOne]
  split_ifs
  · exact hw
  · cases cfg.types.get? (r.tyIdx % cfg.types.length) with
    | none => exact hw
    | some ty =>
      dsimp only
      cases hst : monsterStats ty with
      | none => exact hw
      | some st =>
        dsimp only
        have hok := monsterStats_nonneg ty st hst
        exact aupsert_forall hw (mkMonster_ok _ _ _ _ _ _ _ hok.1 hok.2)

lemma spawnMonsters_monstersOk {w : World} (hw : MonstersOk w) (mapId : String)
    (rolls : List SpawnRoll) (now : ℕ) :
    MonstersOk (spawnMonsters w mapId rolls now).1 := by
  rw [spawnMonsters]
  cases monsterSpawns mapId with
  | none => exact hw
  | some cfg =>
    dsimp only
    suffices h : ∀ acc : World × List Ev, MonstersOk acc.1 →
        MonstersOk (rolls.foldl (fun acc r =>
          let res := spawnOne acc.1 mapId cfg r now
          (res.1, acc.2 ++ res.2)) acc).1 by
      exact h (w, []) hw
    induction rolls with
    | nil => intro acc h; exact h
    | cons r rest ih =>
      intro acc h
      rw [List.foldl_cons]
      exact ih _ (spawnOne_monstersOk h mapId cfg r now)

lemma cleanupMapIfEmpty_monstersOk {w : World} (hw : MonstersOk w)
    (mapId : String) : MonstersOk (cleanupMapIfEmpty w mapId) := by
  rw [cleanupMapIfEmpty]
  cases alookup w.mapPlayers mapId with
  | none => exact hw
  | some l =>
    dsimp only
    split_ifs
    · exact foldl_aremove_forall _ _ hw
    · exact hw

lemma joinHandler_monstersOk {w : World} (hw : MonstersOk w)
    (email name character_class : String) (level xpIn : ℤ) (x y : ℚ)
    (map sockId : String) (now : ℕ) (rolls : List SpawnRoll) :
    MonstersOk (joinHandler w email name character_class level xpIn x y map
      sockId now rolls).1 := by
  rw [joinHandler]
  cases alookup w.players email with
  | some p =>
    dsimp only
    apply spawnMonsters_monstersOk _ map rolls now
    intro mr hmr
    exact hw mr hmr
  | none =>
    dsimp only
    apply spawnMonsters_monstersOk _ map rolls now
    intro mr hmr
    exact hw mr hmr

lemma changeMapHandler_monstersOk {w : World} (hw : MonstersOk w)
    (email mapId : String) (x y : ℚ) (rolls : List SpawnRoll) (now : ℕ) :
    MonstersOk (changeMapHandler w email mapId x y rolls now).1 := by
  rw [changeMapHandler]
  cases alookup w.players email with
  | none => exact hw
  | some p =>
    dsimp only
    cases MAPS mapId with
    | none => exact hw
    | some td =>
      dsimp only
      split_ifs <;>
        first
          | exact hw
          | (apply spawnMonsters_monstersOk _ mapId rolls now
             intro mr hmr
             have hmr2 : mr ∈ (cleanupMapIfEmpty { w with
                 mapPlayers := amodify w.mapPlayers p.map fun l => removeMem l email }
                 p.map).monsters := hmr
             exact cleanupMapIfEmpty_monstersOk
               (show MonstersOk { w with
                   mapPlayers := amodify w.mapPlayers p.map fun l => removeMem l email }
                 from fun mr2 h2 => hw mr2 h2) p.map mr hmr2)

lemma disconnectHandler_monstersOk {w : World} (hw : MonstersOk w) (e : String) :
    MonstersOk (disconnectHandler w e).1 := by
  rw [disconnectHandler]
  cases alookup w.players e with
  | none => exact hw
  | some p =>
    dsimp only
    split_ifs
    · intro mr hmr
      have hmr2 : mr ∈ (cleanupMapIfEmpty { w with
          mapPlayers := amodify w.mapPlayers p.map fun l => removeMem l e }
          p.map).monsters := hmr
      exact cleanupMapIfEmpty_monstersOk
        (show MonstersOk { w with
            mapPlayers := amodify w.mapPlayers p.map fun l => removeMem l e }
          from fun mr2 h2 => hw mr2 h2) p.map mr hmr2
    · intro mr hmr
      exact hw mr hmr

lemma monsterHitHandler_monstersOk {w : World} (hw : MonstersOk w)
    (a mid : String) (d : ℚ) (roll : ℕ) :
    MonstersOk (monsterHitHandler w a mid d roll).1 := by
  rw [monsterHitHandler.eq_def]
  cases alookup w.players a with
  | none => exact hw
  | some cp =>
    dsimp only
    split_ifs with hd
    · exact hw
    · cases hm : alookup w.monsters mid with
      | none => exact hw
      | some m =>
        dsimp only
        have hM := hw (mid, m) (alookup_mem hm)
        have hmod : ∀ pr ∈ amodify w.monsters mid
            (fun _ => { m with hp := max 0 (m.hp - d), lastHitBy := some a }),
            MonsterOk pr.2 :=
          amodify_forall hw (fun x _ => ⟨le_max_left 0 _, hM.2.1, hM.2.2⟩)
        split_ifs with hcond hzero
        · exact hw
        · cases alookup w.players a with
          | none =>
            intro mr hmr
            exact hmod mr hmr
          | some killer =>
            dsimp only
            cases monsterStats m.type with
            | none =>
              intro mr hmr
              exact hmod mr hmr
            | some st =>
              intro mr hmr
              exact hmod mr hmr
        · intro mr hmr
          exact hmod mr hmr

lemma respawnFire_monstersOk {w : World} (hw : MonstersOk w) (mid : String) :
    MonstersOk (respawnFire w mid).1 := by
  rw [respawnFire]
  cases hm : alookup w.monsters mid with
  | none => exact hw
  | some m =>
    dsimp only
    have hM := hw (mid, m) (alookup_mem hm)
    have hmod : ∀ pr ∈ amodify w.monsters mid
        (fun _ => { m with hp := m.maxHp, x := m.spawnX, y := m.spawnY
                           state := "idle", target := none }),
        MonsterOk pr.2 :=
      amodify_forall hw (fun x _ => ⟨hM.2.1, hM.2.1, hM.2.2⟩)
    intro pr hpr
    exact hmod pr hpr

/-- Every operation preserves monster well-formedness. -/
lemma step_monstersOk {w : World} (hw : MonstersOk w) (op : Op) :
    MonstersOk (step w op).1 := by
  cases op with
  | join e n c l xi x y m s now rolls =>
    exact joinHandler_monstersOk hw e n c l xi x y m s now rolls
  | move e x y d st now =>
    intro mr hmr
    dsimp only [step] at hmr
    rw [moveHandler_monsters w e x y d st now] at hmr
    exact hw mr hmr
  | playerHit e d ae =>
    intro mr hmr
    dsimp only [step] at hmr
    rw [playerHitHandler_monsters w e d ae] at hmr
    exact hw mr hmr
  | pvpAttack a t now roll =>
    intro mr hmr
    dsimp only [step] at hmr
    rw [pvpAttackHandler_monsters w a t now roll] at hmr
    exact hw mr hmr
  | monsterAttack mid t =>
    dsimp only [step]
    cases alookup w.monsters mid with
    | none => exact hw
    | some m =>
      intro mr hmr
      dsimp only at hmr
      rw [monsterAttackPlayer_monsters w m t] at hmr
      exact hw mr hmr
  | monsterHit a mid d roll => exact monsterHitHandler_monstersOk hw a mid d roll
  | allocateStat e st pts =>
    intro mr hmr
    dsimp only [step] at hmr
    rw [allocateStatHandler_monsters w e st pts] at hmr
    exact hw mr hmr
  | changeMap e m x y rolls now =>
    exact changeMapHandler_monstersOk hw e m x y rolls now
  | disconnect e => exact disconnectHandler_monstersOk hw e
  | reviveDefault e =>
    intro mr hmr
    dsimp only [step] at hmr
    rw [reviveDefaultFire_monsters w e] at hmr
    exact hw mr hmr
  | revivePvp e =>
    intro mr hmr
    dsimp only [step] at hmr
    rw [revivePvpFire_monsters w e] at hmr
    exact hw mr hmr
  | monsterRespawn mid => exact respawnFire_monstersOk hw mid

/-- Run a whole sequence of operations. -/
def runOps (w : World) (ops : List Op) : World :=
  ops.foldl (fun w op => (step w op).1) w

lemma runOps_monstersOk {w : World} (hw : MonstersOk w) (ops : List Op) :
    MonstersOk (runOps w ops) := by
  induction ops generalizing w with
  | nil => exact hw
  | cons op rest ih => exact ih (step_monstersOk hw op)

/-- One `monster:hit` on an already-dead monster is a complete no-op. -/
lemma monsterHit_deadNoop (w : World) (a mid : String) (d : ℚ) (roll : ℕ)
    (cp : Player) (m : Monster)
    (hcp : alookup w.players a = some cp) (hdead : cp.isDead = false)
    (hm : alookup w.monsters mid = some m) (hhp : m.hp ≤ 0) :
    monsterHitHandler w a mid d roll = (w, [], []) := by
  rw [monsterHitHandler.eq_def, hcp]
  dsimp only
  rw [if_neg (by simp [hdead]), hm]
  dsimp only
  rw [if_pos (Or.inr hhp)]

/-- The respawn callback on a removed monster record mutates nothing. -/
lemma respawnFire_noop (w : World) (mid : String)
    (h : alookup w.monsters mid = none) : respawnFire w mid = (w, []) := by
  rw [respawnFire, h]

/-- The respawn callback on a live record resets it to full HP at the
spawn-origin position. -/
lemma respawnFire_reset (w : World) (mid : String) (m : Monster)
    (h : alookup w.monsters mid = some m) :
    respawnFire w mid
      = ({ w with monsters := amodify w.monsters mid (fun _ =>
            { m with hp := m.maxHp, x := m.spawnX, y := m.spawnY
                     state := "idle", target := none }) },
         [Ev.monsterSpawn mid]) := by
  rw [respawnFire, h]

/-- The exact effect of the killing `monster:hit`: one despawn broadcast,
one kill credit (XP through `giveXp` plus one loot item) to the attacker
just recorded as `lastHitBy`, and one scheduled respawn 5000 ms out. -/
lemma monsterHit_killSpec (w : World) (a mid : String) (d : ℚ) (roll : ℕ)
    (cp : Player) (m : Monster) (st : MonsterStat)
    (hcp : alookup w.players a = some cp) (hdead : cp.isDead = false)
    (hm : alookup w.monsters mid = some m) (hmap : m.mapId = cp.map)
    (hpos : 0 < m.hp) (hkill : m.hp ≤ d)
    (hst : monsterStats m.type = some st) (hloot : 0 < st.loot.length) :
    ∃ item, st.loot.get? (roll % st.loot.length) = some item
      ∧ (monsterHitHandler w a mid d roll).2.1
          = [Ev.monsterHitEv mid 0 d, Ev.monsterDespawn mid,
             Ev.xpUpdated a (giveXp cp st.xp).xp (giveXp cp st.xp).level,
             Ev.dropSpawn item m.mapId, Ev.monsterKilled mid a st.xp]
      ∧ (monsterHitHandler w a mid d roll).2.2 = [(mid, 5000)]
      ∧ alookup (monsterHitHandler w a mid d roll).1.monsters mid
          = some { m with hp := 0, lastHitBy := some a }
      ∧ alookup (monsterHitHandler w a mid d roll).1.players a
          = some { giveXp cp st.xp with
              inventory := (giveXp cp st.xp).inventory ++ [item] } := by
  have hidx : roll % st.loot.length < st.loot.length := Nat.mod_lt roll hloot
  refine ⟨st.loot.get ⟨roll % st.loot.length, hidx⟩, List.get?_eq_get hidx, ?_⟩
  have hhp0 : max 0 (m.hp - d) = 0 := max_eq_left (by linarith)
  rw [monsterHitHandler.eq_def, hcp]
  dsimp only
  rw [if_neg (by simp [hdead]), hm]
  dsimp only
  rw [if_neg (by
    push_neg
    exact ⟨hmap, hpos⟩)]
  rw [hhp0]
  rw [if_pos (le_refl (0 : ℚ))]
  rw [hcp]
  dsimp only
  rw [hst]
  dsimp only
  rw [List.get?_eq_get hidx]
  dsimp only
  refine ⟨rfl, rfl, ?_, ?_⟩
  · rw [pupdate]
    dsimp only
    rw [alookup_amodify_self, hm]
    rfl
  · rw [pupdate]
    dsimp only
    rw [alookup_amodify_self, hcp]
    rfl

/-- C3: monster hp never goes negative under any operation sequence; the
hit that brings hp to exactly 0 produces exactly one despawn broadcast, one
kill credit (XP via `giveXp` plus one random loot-table item) to the last
hitter, one scheduled respawn 5000 ms later; hits on a dead monster are
no-ops; the respawn callback resets to full hp at the spawn origin, and is
a pure no-op once the record was removed (e.g. by map-empty cleanup). -/
theorem claim_C3_monsterLifecycle :
    (∀ (w : World) (ops : List Op), MonstersOk w →
        ∀ mr ∈ (runOps w ops).monsters, 0 ≤ mr.2.hp)
    ∧ (∀ (w : World) (a mid : String) (d : ℚ) (roll : ℕ) (cp : Player)
          (m : Monster) (st : MonsterStat),
        alookup w.players a = some cp → cp.isDead = false →
        alookup w.monsters mid = some m → m.mapId = cp.map →
        0 < m.hp → m.hp ≤ d → monsterStats m.type = some st →
        0 < st.loot.length →
        ∃ item, st.loot.get? (roll % st.loot.length) = some item
          ∧ (monsterHitHandler w a mid d roll).2.1
              = [Ev.monsterHitEv mid 0 d, Ev.monsterDespawn mid,
                 Ev.xpUpdated a (giveXp cp st.xp).xp (giveXp cp st.xp).level,
                 Ev.dropSpawn item m.mapId, Ev.monsterKilled mid a st.xp]
          ∧ (monsterHitHandler w a mid d roll).2.2 = [(mid, 5000)]
          ∧ alookup (monsterHitHandler w a mid d roll).1.monsters mid
              = some { m with hp := 0, lastHitBy := some a }
          ∧ alookup (monsterHitHandler w a mid d roll).1.players a
              = some { giveXp cp st.xp with
                  inventory := (giveXp cp st.xp).inventory ++ [item] })
    ∧ (∀ (w : World) (a mid : String) (d : ℚ) (roll : ℕ) (cp : Player)
          (m : Monster),
        alookup w.players a = some cp → cp.isDead = false →
        alookup w.monsters mid = some m → m.hp ≤ 0 →
        monsterHitHandler w a mid d roll = (w, [], []))
    ∧ (∀ (w : World) (mid : String) (m : Monster),
        alookup w.monsters mid = some m →
        respawnFire w mid
          = ({ w with monsters := amodify w.monsters mid (fun _ =>
                { m with hp := m.maxHp, x := m.spawnX, y := m.spawnY
                         state := "idle", target := none }) },
             [Ev.monsterSpawn mid]))
    ∧ (∀ (w : World) (mid : String), alookup w.monsters mid = none →
        respawnFire w mid = (w, [])) :=
  ⟨fun w ops hw mr hmr => (runOps_monstersOk hw ops mr hmr).1,
   monsterHit_killSpec, monsterHit_deadNoop, respawnFire_reset, respawnFire_noop⟩

/-- The `MONSTER_STATS` row for poring. -/
def poringStat : MonsterStat := ⟨50, 5, 3/2, 150, 40, 1500, 5, ["potion"]⟩

/-- A freshly spawned poring. -/
def poringM : Monster := mkMonster "m1" "poring" "monster_field_1" 300 300 poringStat 0

/-- A world with the sample player and one live poring on `monster_field_1`. -/
def w3w : World :=
  { players := [("a@x", samplePlayer)]
    mapPlayers := [("monster_field_1", ["a@x"])]
    monsters := [("m1", poringM)]
    mapMonsters := [("monster_field_1", ["m1"])] }

/-- Witness for C3: a single 50-damage hit kills the poring — one despawn,
one kill credit to the attacker, one respawn scheduled 5000 ms out — and
the respawn callback for an unknown monster id is a no-op. -/
theorem claim_C3_monsterLifecycle_witness :
    (∃ item, poringStat.loot.get? (0 % poringStat.loot.length) = some item
      ∧ (monsterHitHandler w3w "a@x" "m1" 50 0).2.1
          = [Ev.monsterHitEv "m1" 0 50, Ev.monsterDespawn "m1",
             Ev.xpUpdated "a@x" (giveXp samplePlayer poringStat.xp).xp
               (giveXp samplePlayer poringStat.xp).level,
             Ev.dropSpawn item poringM.mapId,
             Ev.monsterKilled "m1" "a@x" poringStat.xp]
      ∧ (monsterHitHandler w3w "a@x" "m1" 50 0).2.2 = [("m1", 5000)]
      ∧ alookup (monsterHitHandler w3w "a@x" "m1" 50 0).1.monsters "m1"
          = some { poringM with hp := 0, lastHitBy := some "a@x" }
      ∧ alookup (monsterHitHandler w3w "a@x" "m1" 50 0).1.players "a@x"
          = some { giveXp samplePlayer poringStat.xp with
              inventory := (giveXp samplePlayer poringStat.xp).inventory ++ [item] })
    ∧ respawnFire w7 "m1" = (w7, []) :=
  ⟨claim_C3_monsterLifecycle.2.1 w3w "a@x" "m1" 50 0 samplePlayer poringM
      poringStat rfl rfl rfl rfl
      (by norm_num [poringM, mkMonster, poringStat])
      (by norm_num [poringM, mkMonster, poringStat]) rfl (by decide),
   claim_C3_monsterLifecycle.2.2.2.2 w7 "m1" rfl⟩

/-! ### Player well-formedness: the C1 invariant -/

/-- Non-negativity of all six allocatable attributes (what validated
`player:allocateStat` operations preserve, starting from the all-ones
fresh block). -/
def StatsOk (s : Stats) : Prop :=
  0 ≤ s.STR ∧ 0 ≤ s.AGI ∧ 0 ≤ s.VIT ∧ 0 ≤ s.INT ∧ 0 ≤ s.DEX ∧ 0 ≤ s.LUCK

/-- Adding a non-negative point count to any attribute keeps all six
attributes non-negative. -/
lemma setStat_statsOk {s : Stats} (h : StatsOk s) {pts : ℤ} (hpts : 0 ≤ pts)
    (key : String) : StatsOk (setStat s key (fun v => v + pts)) := by
  obtain ⟨h1, h2, h3, h4, h5, h6⟩ := h
  unfold setStat StatsOk
  split_ifs <;> refine ⟨?_, ?_, ?_, ?_, ?_, ?_⟩ <;> dsimp only <;> omega

/-- The C1 invariant on one player record: clamped hp, pipeline-derived
maxHp/attack, and well-formed pipeline inputs (level at least 1,
non-negative attributes — what the validated operations guarantee).
`equipment = []` is part of the invariant because no handler in the source
ever writes `player.equipment` (it is initialised to `{}` on first join and
never touched again). -/
def PlayerOk (p : Player) : Prop :=
  p.equipment = [] ∧ 0 ≤ p.hp ∧ p.hp ≤ p.maxHp
    ∧ p.maxHp = pipelineMaxHp p ∧ p.attack = pipelineAttack p
    ∧ 1 ≤ p.level ∧ StatsOk p.stats

/-- All players in the world are well-formed. -/
def PlayersOk (w : World) : Prop := ∀ pr ∈ w.players, PlayerOk pr.2

lemma PlayerOk_congr {p q : Player} (h : PlayerOk p)
    (hc : q.character_class = p.character_class) (hl : q.level = p.level)
    (hs : q.stats = p.stats) (he : q.equipment = p.equipment)
    (hhp : q.hp = p.hp) (hmx : q.maxHp = p.maxHp) (hak : q.attack = p.attack) :
    PlayerOk q := by
  obtain ⟨he', h0, hle, hmax, hatk, hlev, hst⟩ := h
  refine ⟨by rw [he, he'], by rw [hhp]; exact h0,
    by rw [hhp, hmx]; exact hle, ?_, ?_,
    by rw [hl]; exact hlev, by rw [hs]; exact hst⟩
  · rw [hmx, hmax]
    exact (pipelineMaxHp_congr hc hl hs he).symm
  · rw [hak, hatk]
    exact (pipelineAttack_congr hc hl hs he).symm

/-- A record whose hp/maxHp/attack are the pipeline outputs of a player
`p0` with empty equipment, level at least 1 and non-negative attributes
(and which shares `p0`'s pipeline inputs) is well-formed — the "full heal
after recompute" shape. -/
lemma PlayerOk_ofPipeline {p0 q : Player} (he : p0.equipment = [])
    (hlev : 1 ≤ p0.level) (hst : StatsOk p0.stats)
    (hc : q.character_class = p0.character_class) (hl : q.level = p0.level)
    (hs : q.stats = p0.stats) (heq : q.equipment = p0.equipment)
    (hhp : q.hp = pipelineMaxHp p0) (hmx : q.maxHp = pipelineMaxHp p0)
    (hak : q.attack = pipelineAttack p0) : PlayerOk q := by
  have hM := pipelineMaxHp_pos he hlev hst.2.2.1
  refine ⟨by rw [heq, he], by rw [hhp]; linarith, by rw [hhp, hmx], ?_, ?_,
    by rw [hl]; exact hlev, by rw [hs]; exact hst⟩
  · rw [hmx]
    exact (pipelineMaxHp_congr hc hl hs heq).symm
  · rw [hak]
    exact (pipelineAttack_congr hc hl hs heq).symm

/-- Applying a non-negative damage keeps a record well-formed. -/
lemma PlayerOk_damaged {p : Player} (h : PlayerOk p) {d : ℚ} (hd : 0 ≤ d) :
    PlayerOk { p with hp := max 0 (p.hp - d) } := by
  obtain ⟨he, h0, hle, hmax, hatk, hlev, hst⟩ := h
  refine ⟨he, le_max_left _ _, ?_, ?_, ?_, hlev, hst⟩
  · exact max_le (le_trans h0 hle) (by linarith)
  · show p.maxHp = pipelineMaxHp { p with hp := max 0 (p.hp - d) }
    rw [hmax]
    exact (pipelineMaxHp_congr rfl rfl rfl rfl).symm
  · show p.attack = pipelineAttack { p with hp := max 0 (p.hp - d) }
    rw [hatk]
    exact (pipelineAttack_congr rfl rfl rfl rfl).symm

/-- The hp produced by `recalcPlayerWithEquipment` is non-negative when the
incoming hp is and the pipeline maxHp is positive. -/
lemma recalc_hp_nonneg {p : Player} (h0 : 0 ≤ p.hp)
    (hM : 0 < pipelineMaxHp p) (b : Bool) :
    0 ≤ (recalcPlayerWithEquipment p b).hp := by
  unfold recalcPlayerWithEquipment
  dsimp only
  split_ifs with hb hd hgt
  · exact h0
  · exact le_of_lt (lt_of_lt_of_le hM (le_of_eq rfl))
  · have hid : pipelineMaxHp p * (p.hp / pipelineMaxHp p) = p.hp := by
      field_simp
    rw [hid]
    show (0:ℚ) ≤ (jsRound p.hp : ℚ)
    exact_mod_cast jsRound_nonneg h0
  · exact le_of_lt hM

/-- Full hp characterisation of `recalcPlayerWithEquipment` under the
invariant hypotheses. -/
lemma recalc_hp_le {p : Player} (h0 : 0 ≤ p.hp) (hle : p.hp ≤ p.maxHp)
    (hmax : p.maxHp = pipelineMaxHp p) (hM : 0 < pipelineMaxHp p) (b : Bool) :
    (recalcPlayerWithEquipment p b).hp ≤ pipelineMaxHp p := by
  unfold recalcPlayerWithEquipment
  dsimp only
  split_ifs with hb hd hgt
  · rw [← hmax]; exact hle
  · exact le_refl _
  · exact le_of_not_lt hgt
  · exact le_refl _

/-- Preservation: `recalcPlayerWithEquipment` keeps the player invariant. -/
lemma recalc_PlayerOk {p : Player} (h : PlayerOk p) (b : Bool) :
    PlayerOk (recalcPlayerWithEquipment p b) := by
  obtain ⟨he, h0, hle, hmax, hatk, hlev, hst⟩ := h
  have hM : (0:ℚ) < pipelineMaxHp p := lt_of_lt_of_le (by norm_num)
    (pipelineMaxHp_pos he hlev hst.2.2.1)
  refine ⟨by simp [he], recalc_hp_nonneg h0 hM b, ?_, ?_, ?_,
    by rw [recalc_level]; exact hlev, by rw [recalc_stats]; exact hst⟩
  · rw [recalc_maxHp]
    exact recalc_hp_le h0 hle hmax hM b
  · rw [recalc_maxHp]
    exact (pipelineMaxHp_congr (recalc_class p b) (recalc_level p b)
      (recalc_stats p b) (recalc_equipment p b)).symm
  · rw [recalc_attack]
    exact (pipelineAttack_congr (recalc_class p b) (recalc_level p b)
      (recalc_stats p b) (recalc_equipment p b)).symm

lemma playersOk_amodify_const {w : World} (hw : PlayersOk w) (e : String)
    {v : Player} (hv : PlayerOk v) :
    ∀ pr ∈ amodify w.players e (fun _ => v), PlayerOk pr.2 :=
  amodify_forall hw (fun _ _ => hv)

lemma levelUp_PlayerOk {p : Player} (he : p.equipment = [])
    (hlev : 1 ≤ p.level) (hst : StatsOk p.stats) :
    PlayerOk (levelUpPlayer p) := by
  refine @PlayerOk_ofPipeline { p with level := p.level + 1 } _ (by simpa using he)
    (by show (1:ℤ) ≤ p.level + 1; omega) (by exact hst)
    ?_ ?_ ?_ ?_ ?_ ?_ ?_
  · simp [levelUpPlayer]
  · simp [levelUpPlayer]
  · simp [levelUpPlayer]
  · simp [levelUpPlayer]
  · simp [levelUpPlayer]
  · simp [levelUpPlayer]
  · simp [levelUpPlayer]

lemma giveXpGo_PlayerOk (fuel : ℕ) :
    ∀ p : Player, PlayerOk p → PlayerOk (giveXpGo fuel p) := by
  induction fuel with
  | zero => intro p h; exact h
  | succ fuel ih =>
    intro p h
    by_cases hc : 1 ≤ p.level ∧ p.level * 100 ≤ p.xp
    · rw [giveXpGo, if_pos hc]
      exact ih _ (levelUp_PlayerOk (by simpa using h.1)
        (by simpa using h.2.2.2.2.2.1) (by simpa using h.2.2.2.2.2.2))
    · rw [giveXpGo, if_neg hc]
      exact h

lemma giveXp_PlayerOk {p : Player} (h : PlayerOk p) (n : ℕ) :
    PlayerOk (giveXp p n) := by
  rw [giveXp]
  exact giveXpGo_PlayerOk _ _ (PlayerOk_congr h rfl rfl rfl rfl rfl rfl rfl)

lemma handlePlayerDeath_playersOk {w : World} (hw : PlayersOk w) (e : String) :
    PlayersOk (handlePlayerDeath w e).1 := by
  rw [handlePlayerDeath.eq_def]
  cases hp : alookup w.players e with
  | none => exact hw
  | some p =>
    dsimp only
    split_ifs
    · exact hw
    · have hP := hw (e, p) (alookup_mem hp)
      have hv : PlayerOk { p with isDead := true, state := "dead", map := "town_1"
                                  x := mapSpawnX "town_1", y := mapSpawnY "town_1" } :=
        PlayerOk_congr hP rfl rfl rfl rfl rfl rfl rfl
      have hmod := playersOk_amodify_const hw e hv
      intro pr hpr
      exact hmod pr hpr

lemma handlePvPDeath_playersOk {w : World} (hw : PlayersOk w) (e : String) :
    PlayersOk (handlePvPDeath w e).1 := by
  rw [handlePvPDeath.eq_def]
  cases hp : alookup w.players e with
  | none => exact hw
  | some p =>
    dsimp only
    split_ifs
    · exact hw
    · have hforall : ∀ pr ∈ amodify w.players e
          (fun q => { q with isDead := true, state := "dead" }), PlayerOk pr.2 :=
        amodify_forall hw
          (fun q hq => PlayerOk_congr hq rfl rfl rfl rfl rfl rfl rfl)
      intro pr hpr
      exact hforall pr hpr

/-- Resetting hp to (a copy of) a well-formed record's maxHp is ok. -/
lemma PlayerOk_resetMax {p1 q : Player} (h : PlayerOk p1)
    (hc : q.character_class = p1.character_class) (hl : q.level = p1.level)
    (hs : q.stats = p1.stats) (he : q.equipment = p1.equipment)
    (hhp : q.hp = p1.maxHp) (hmx : q.maxHp = p1.maxHp) (hak : q.attack = p1.attack) :
    PlayerOk q :=
  PlayerOk_ofPipeline h.1 h.2.2.2.2.2.1 h.2.2.2.2.2.2 hc hl hs he
    (hhp.trans h.2.2.2.1) (hmx.trans h.2.2.2.1) (hak.trans h.2.2.2.2.1)

lemma cleanup_players (w : World) (mapId : String) :
    (cleanupMapIfEmpty w mapId).players = w.players := by
  rw [cleanupMapIfEmpty]
  cases alookup w.mapPlayers mapId with
  | none => rfl
  | some l =>
    dsimp only
    split_ifs <;> rfl

lemma respawnFire_players (w : World) (mid : String) :
    (respawnFire w mid).1.players = w.players := by
  rw [respawnFire]
  cases alookup w.monsters mid with
  | none => rfl
  | some m => rfl

lemma playerHitHandler_playersOk {w : World} (hw : PlayersOk w) (e : String)
    {d : ℚ} (hd : 0 ≤ d) (ae : Option String) :
    PlayersOk (playerHitHandler w e d ae).1 := by
  rw [playerHitHandler.eq_def]
  cases hp : alookup w.players e with
  | none => exact hw
  | some p =>
    dsimp only
    have hP := hw (e, p) (alookup_mem hp)
    have hp1 : PlayerOk { p with hp := max 0 (p.hp - d) } := PlayerOk_damaged hP hd
    have hw1 : ∀ pr ∈ amodify w.players e
        (fun _ => { p with hp := max 0 (p.hp - d) }), PlayerOk pr.2 :=
      playersOk_amodify_const hw e hp1
    split_ifs with h1 h2 h3 h4
    · exact hw
    · exact hw
    · have hp2 : PlayerOk { { p with hp := max 0 (p.hp - d) } with
          hp := ({ p with hp := max 0 (p.hp - d) } : Player).maxHp
          x := mapSpawnX "pvp_arena", y := mapSpawnY "pvp_arena" } :=
        PlayerOk_resetMax hp1 rfl rfl rfl rfl rfl rfl rfl
      have hw2 : ∀ pr ∈ amodify (amodify w.players e
          (fun _ => { p with hp := max 0 (p.hp - d) })) e
          (fun _ => { { p with hp := max 0 (p.hp - d) } with
            hp := ({ p with hp := max 0 (p.hp - d) } : Player).maxHp
            x := mapSpawnX "pvp_arena", y := mapSpawnY "pvp_arena" }),
          PlayerOk pr.2 :=
        amodify_forall hw1 (fun _ _ => hp2)
      intro pr hpr
      exact hw2 pr hpr
    · exact handlePlayerDeath_playersOk (fun pr hpr => hw1 pr hpr) e
    · intro pr hpr
      exact hw1 pr hpr

lemma monsterAttackPlayer_playersOk {w : World} (hw : PlayersOk w)
    (m : Monster) (hatk : 0 ≤ m.attack) (t : String) :
    PlayersOk (monsterAttackPlayer w m t).1 := by
  rw [monsterAttackPlayer.eq_def]
  cases hp : alookup w.players t with
  | none => exact hw
  | some p =>
    dsimp only
    have hP := hw (t, p) (alookup_mem hp)
    have hp1 : PlayerOk { p with hp := max 0 (p.hp - m.attack) } :=
      PlayerOk_damaged hP hatk
    have hw1 : ∀ pr ∈ amodify w.players t
        (fun _ => { p with hp := max 0 (p.hp - m.attack) }), PlayerOk pr.2 :=
      playersOk_amodify_const hw t hp1
    split_ifs
    · exact hw
    · exact handlePlayerDeath_playersOk (fun pr hpr => hw1 pr hpr) t
    · intro pr hpr
      exact hw1 pr hpr

lemma allocateStatHandler_playersOk {w : World} (hw : PlayersOk w)
    (e st : String) {pts : ℤ} (hpts : 0 ≤ pts) :
    PlayersOk (allocateStatHandler w e st pts).1 := by
  rw [allocateStatHandler.eq_def]
  cases hp : alookup w.players e with
  | none => exact hw
  | some p =>
    dsimp only
    have hP := hw (e, p) (alookup_mem hp)
    have hst1 : StatsOk (setStat p.stats st (fun v => v + pts)) :=
      setStat_statsOk hP.2.2.2.2.2.2 hpts st
    split_ifs <;> try exact hw
    · have hM1 : (0:ℚ) < pipelineMaxHp { p with
          stats := setStat p.stats st (fun v => v + pts)
          statPointsAvailable := p.statPointsAvailable - pts } :=
        lt_of_lt_of_le (by norm_num) (pipelineMaxHp_pos (by simpa using hP.1)
          (by simpa using hP.2.2.2.2.2.1) (by simpa using hst1.2.2.1))
      have h0 : (0:ℚ) ≤ ({ p with
          stats := setStat p.stats st (fun v => v + pts)
          statPointsAvailable := p.statPointsAvailable - pts } : Player).hp :=
        hP.2.1
      have hrec := recalc_hp_nonneg h0 hM1 true
      have hp3 : PlayerOk { recalcPlayerWithEquipment { p with
          stats := setStat p.stats st (fun v => v + pts)
          statPointsAvailable := p.statPointsAvailable - pts } true with
          hp := min (recalcPlayerWithEquipment { p with
              stats := setStat p.stats st (fun v => v + pts)
              statPointsAvailable := p.statPointsAvailable - pts } true).hp
            (recalcPlayerWithEquipment { p with
              stats := setStat p.stats st (fun v => v + pts)
              statPointsAvailable := p.statPointsAvailable - pts } true).maxHp } := by
        refine ⟨by simpa using hP.1, ?_, ?_, ?_, ?_, ?_, ?_⟩
        · show (0:ℚ) ≤ min _ _
          refine le_min hrec ?_
          rw [recalc_maxHp]
          exact le_of_lt hM1
        · exact min_le_right _ _
        · show (recalcPlayerWithEquipment _ true).maxHp = _
          rw [recalc_maxHp]
          exact (pipelineMaxHp_congr (by simp) (by simp) (by simp) (by simp)).symm
        · show (recalcPlayerWithEquipment _ true).attack = _
          rw [recalc_attack]
          exact (pipelineAttack_congr (by simp) (by simp) (by simp) (by simp)).symm
        · show (1:ℤ) ≤ (recalcPlayerWithEquipment { p with
              stats := setStat p.stats st (fun v => v + pts)
              statPointsAvailable := p.statPointsAvailable - pts } true).level
          rw [recalc_level]
          exact hP.2.2.2.2.2.1
        · show StatsOk (recalcPlayerWithEquipment { p with
              stats := setStat p.stats st (fun v => v + pts)
              statPointsAvailable := p.statPointsAvailable - pts } true).stats
          rw [recalc_stats]
          exact hst1
      have hw3 := playersOk_amodify_const hw e hp3
      intro pr hpr
      exact hw3 pr hpr

lemma moveHandler_playersOk {w : World} (hw : PlayersOk w) (e : String)
    (x y : ℚ) (dir st : String) (now : ℕ) :
    PlayersOk (moveHandler w e x y dir st now).1 := by
  rw [moveHandler.eq_def]
  cases hp : alookup w.players e with
  | none => exact hw
  | some p =>
    dsimp only
    split_ifs
    · exact hw
    · exact hw
    · have hforall : ∀ pr ∈ amodify w.players e (fun q =>
          { q with x := x, y := y, direction := dir, state := st
                   lastUpdate := now }), PlayerOk pr.2 :=
        amodify_forall hw
          (fun q hq => PlayerOk_congr hq rfl rfl rfl rfl rfl rfl rfl)
      intro pr hpr
      exact hforall pr hpr

lemma reviveDefaultFire_playersOk {w : World} (hw : PlayersOk w) (e : String) :
    PlayersOk (reviveDefaultFire w e).1 := by
  rw [reviveDefaultFire.eq_def]
  cases hp : alookup w.players e with
  | none => exact hw
  | some p =>
    dsimp only
    have hP := hw (e, p) (alookup_mem hp)
    have hp2 : PlayerOk { recalcPlayerWithEquipment p true with
        hp := (recalcPlayerWithEquipment p true).maxHp
        state := "idle", isDead := false } := by
      refine @PlayerOk_ofPipeline p _ hP.1 hP.2.2.2.2.2.1 hP.2.2.2.2.2.2
        (by simp) (by simp) (by simp) (by simp) (by simp) (by simp) (by simp)
    have hw2 := playersOk_amodify_const hw e hp2
    intro pr hpr
    exact hw2 pr hpr

lemma revivePvpFire_playersOk {w : World} (hw : PlayersOk w) (e : String) :
    PlayersOk (revivePvpFire w e).1 := by
  rw [revivePvpFire.eq_def]
  cases hp : alookup w.players e with
  | none => exact hw
  | some p =>
    dsimp only
    have hP := hw (e, p) (alookup_mem hp)
    have hp2 : PlayerOk { recalcPlayerWithEquipment p true with
        hp := (recalcPlayerWithEquipment p true).maxHp
        state := "idle", isDead := false
        x := mapSpawnX "pvp_arena", y := mapSpawnY "pvp_arena" } := by
      refine @PlayerOk_ofPipeline p _ hP.1 hP.2.2.2.2.2.1 hP.2.2.2.2.2.2
        (by simp) (by simp) (by simp) (by simp) (by simp) (by simp) (by simp)
    have hw2 := playersOk_amodify_const hw e hp2
    intro pr hpr
    exact hw2 pr hpr

lemma pvpAttackHandler_playersOk {w : World} (hw : PlayersOk w)
    (a t : String) (now : ℕ) (roll : ℚ) :
    PlayersOk (pvpAttackHandler w a t now roll).1 := by
  rw [pvpAttackHandler.eq_def]
  cases ha : alookup w.players a with
  | none => exact hw
  | some pa =>
    dsimp only
    have hPa := hw (a, pa) (alookup_mem ha)
    have hatk : (0:ℚ) ≤ pa.attack := by
      rw [hPa.2.2.2.2.1]
      exact pipelineAttack_nonneg hPa.1 hPa.2.2.2.2.2.1 hPa.2.2.2.2.2.2.1
    have hw1 : ∀ pr ∈ amodify w.players a
        (fun q => { q with lastAttackTime := now }), PlayerOk pr.2 :=
      amodify_forall hw
        (fun q hq => PlayerOk_congr hq rfl rfl rfl rfl rfl rfl rfl)
    split_ifs <;> try exact hw
    all_goals (
      cases ht : alookup (pupdate w a fun q =>
          { q with lastAttackTime := now }).players t with
      | none =>
        intro pr hpr
        exact hw1 pr hpr
      | some pt =>
        dsimp only
        have hPt : PlayerOk pt := hw1 (t, pt) (alookup_mem ht)
        have hw2 : ∀ dv : ℚ, 0 ≤ dv → ∀ pr ∈ amodify (amodify w.players a
            (fun q => { q with lastAttackTime := now })) t
            (fun _ => { pt with hp := max 0 (pt.hp - dv) }), PlayerOk pr.2 :=
          fun dv hdv => amodify_forall hw1 (fun _ _ => PlayerOk_damaged hPt hdv)
        split_ifs <;>
          first
            | (intro pr hpr; exact hw1 pr hpr)
            | (refine handlePvPDeath_playersOk ?_ t
               intro pr hpr
               refine hw2 _ ?_ pr hpr
               exact_mod_cast jsRound_nonneg (by linarith))
            | (intro pr hpr
               refine hw2 _ ?_ pr hpr
               exact_mod_cast jsRound_nonneg (by linarith)))

lemma monsterHitHandler_playersOk {w : World} (hw : PlayersOk w)
    (a mid : String) (d : ℚ) (roll : ℕ) :
    PlayersOk (monsterHitHandler w a mid d roll).1 := by
  rw [monsterHitHandler.eq_def]
  cases ha : alookup w.players a with
  | none => exact hw
  | some cp =>
    dsimp only
    split_ifs <;> try exact hw
    case _ =>
      cases hm : alookup w.monsters mid with
      | none => exact hw
      | some m =>
        dsimp only
        split_ifs <;> try (intro pr hpr; exact hw pr hpr)
        case _ =>
          cases hk : alookup w.players a with
          | none =>
            intro pr hpr
            exact hw pr hpr
          | some killer =>
            dsimp only
            have hK : PlayerOk killer := hw (a, killer) (alookup_mem hk)
            cases monsterStats m.type with
            | none =>
              intro pr hpr
              exact hw pr hpr
            | some st =>
              dsimp only
              cases st.loot.get? (roll % st.loot.length) with
              | none =>
                have hw2 := playersOk_amodify_const hw a
                  (giveXp_PlayerOk hK st.xp)
                intro pr hpr
                exact hw2 pr hpr
              | some item =>
                have hok : PlayerOk { giveXp killer st.xp with
                    inventory := (giveXp killer st.xp).inventory ++ [item] } :=
                  PlayerOk_congr (giveXp_PlayerOk hK st.xp)
                    rfl rfl rfl rfl rfl rfl rfl
                have hw2 := playersOk_amodify_const hw a hok
                intro pr hpr
                exact hw2 pr hpr

lemma joinFresh_PlayerOk (email name character_class : String) {level : ℤ}
    (hlev : 1 ≤ level) (xpIn : ℤ)
    (x y : ℚ) (map sockId : String) (now : ℕ) :
    PlayerOk (joinFreshPlayer email name character_class level xpIn x y map
      sockId now) := by
  rw [joinFreshPlayer]
  dsimp only
  refine ⟨by simp, ?_, ?_, ?_, ?_, ?_, ?_⟩
  · show (0:ℚ) ≤ (recalcPlayerWithEquipment _ false).maxHp
    rw [recalc_maxHp]
    have h1 : (1:ℚ) ≤ (level : ℚ) := by exact_mod_cast hlev
    simp only [pipelineMaxHp, calculateDerivedStats, calculatePlayerStats,
      classBase, assassinBase, or1, bonusFor]
    norm_num
    nlinarith
  · show (recalcPlayerWithEquipment _ false).maxHp ≤ _
    exact le_refl _
  · show (recalcPlayerWithEquipment _ false).maxHp = _
    rw [recalc_maxHp]
    exact (pipelineMaxHp_congr (by simp) (by simp) (by simp) (by simp)).symm
  · show (recalcPlayerWithEquipment _ false).attack = _
    rw [recalc_attack]
    exact (pipelineAttack_congr (by simp) (by simp) (by simp) (by simp)).symm
  · show (1:ℤ) ≤ (recalcPlayerWithEquipment _ false).level
    rw [recalc_level]
    exact hlev
  · show StatsOk (recalcPlayerWithEquipment _ false).stats
    rw [recalc_stats]
    exact ⟨zero_le_one, zero_le_one, zero_le_one, zero_le_one, zero_le_one,
      zero_le_one⟩

lemma joinHandler_playersOk {w : World} (hw : PlayersOk w)
    (email name character_class : String) {level : ℤ} (hlev : 1 ≤ level)
    (xpIn : ℤ) (x y : ℚ)
    (map sockId : String) (now : ℕ) (rolls : List SpawnRoll) :
    PlayersOk (joinHandler w email name character_class level xpIn x y map
      sockId now rolls).1 := by
  rw [joinHandler.eq_def]
  cases hp : alookup w.players email with
  | some p =>
    dsimp only
    have hP := hw (email, p) (alookup_mem hp)
    have hpmid : PlayerOk { p with socketId := some sockId, x := x, y := y
                                   map := map, lastUpdate := now } :=
      PlayerOk_congr hP rfl rfl rfl rfl rfl rfl rfl
    have hw1 := playersOk_amodify_const hw email (recalc_PlayerOk hpmid true)
    intro pr hpr
    rw [(spawnMonsters_frame _ map rolls now).1] at hpr
    exact hw1 pr hpr
  | none =>
    dsimp only
    intro pr hpr
    rw [(spawnMonsters_frame _ map rolls now).1] at hpr
    rcases List.mem_append.mp hpr with h | h
    · exact hw pr h
    · rw [List.mem_singleton] at h
      rw [h]
      exact joinFresh_PlayerOk email name character_class hlev xpIn x y map
        sockId now

lemma changeMapHandler_playersOk {w : World} (hw : PlayersOk w)
    (e mapId : String) (x y : ℚ) (rolls : List SpawnRoll) (now : ℕ) :
    PlayersOk (changeMapHandler w e mapId x y rolls now).1 := by
  rw [changeMapHandler.eq_def]
  cases hp : alookup w.players e with
  | none => exact hw
  | some p =>
    dsimp only
    cases MAPS mapId with
    | none => exact hw
    | some td =>
      dsimp only
      have hfor : ∀ pr ∈ amodify (cleanupMapIfEmpty { w with
          mapPlayers := amodify w.mapPlayers p.map (fun l => removeMem l e) }
          p.map).players e (fun q => { q with map := mapId, x := x, y := y }),
          PlayerOk pr.2 := by
        have hcw : PlayersOk (cleanupMapIfEmpty { w with
            mapPlayers := amodify w.mapPlayers p.map (fun l => removeMem l e) }
            p.map) := by
          intro pr2 hpr2
          rw [cleanup_players] at hpr2
          exact hw pr2 hpr2
        exact amodify_forall hcw
          (fun q hq => PlayerOk_congr hq rfl rfl rfl rfl rfl rfl rfl)
      split_ifs <;> try exact hw
      all_goals
        (intro pr hpr
         rw [(spawnMonsters_frame _ mapId rolls now).1] at hpr
         exact hfor pr hpr)

lemma disconnectHandler_playersOk {w : World} (hw : PlayersOk w) (e : String) :
    PlayersOk (disconnectHandler w e).1 := by
  rw [disconnectHandler.eq_def]
  cases hp : alookup w.players e with
  | none => exact hw
  | some p =>
    dsimp only
    split_ifs
    · have hfor : ∀ pr ∈ amodify (cleanupMapIfEmpty { w with
          mapPlayers := amodify w.mapPlayers p.map (fun l => removeMem l e) }
          p.map).players e (fun q => { q with socketId := none }),
          PlayerOk pr.2 := by
        have hcw : PlayersOk (cleanupMapIfEmpty { w with
            mapPlayers := amodify w.mapPlayers p.map (fun l => removeMem l e) }
            p.map) := by
          intro pr2 hpr2
          rw [cleanup_players] at hpr2
          exact hw pr2 hpr2
        exact amodify_forall hcw
          (fun q hq => PlayerOk_congr hq rfl rfl rfl rfl rfl rfl rfl)
      intro pr hpr
      exact hfor pr hpr
    · have hfor2 : ∀ pr ∈ amodify w.players e
          (fun q => { q with socketId := none }), PlayerOk pr.2 :=
        amodify_forall hw
          (fun q hq => PlayerOk_congr hq rfl rfl rfl rfl rfl rfl rfl)
      intro pr hpr
      exact hfor2 pr hpr

/-- The combined world invariant. -/
def WorldOk (w : World) : Prop := PlayersOk w ∧ MonstersOk w

/-- Every valid operation preserves the combined invariant. -/
lemma step_worldOk {w : World} (hw : WorldOk w) (op : Op) (hop : ValidOp op) :
    WorldOk (step w op).1 := by
  refine ⟨?_, step_monstersOk hw.2 op⟩
  cases op with
  | join e n c l xi x y m s now rolls =>
    exact joinHandler_playersOk hw.1 e n c hop xi x y m s now rolls
  | move e x y d st now => exact moveHandler_playersOk hw.1 e x y d st now
  | playerHit e d ae => exact playerHitHandler_playersOk hw.1 e hop ae
  | pvpAttack a t now roll => exact pvpAttackHandler_playersOk hw.1 a t now roll
  | monsterAttack mid t =>
    dsimp only [step]
    cases hm : alookup w.monsters mid with
    | none => exact hw.1
    | some m =>
      exact monsterAttackPlayer_playersOk hw.1 m
        (hw.2 (mid, m) (alookup_mem hm)).2.2 t
  | monsterHit a mid d roll => exact monsterHitHandler_playersOk hw.1 a mid d roll
  | allocateStat e st pts => exact allocateStatHandler_playersOk hw.1 e st hop
  | changeMap e m x y rolls now =>
    exact changeMapHandler_playersOk hw.1 e m x y rolls now
  | disconnect e => exact disconnectHandler_playersOk hw.1 e
  | reviveDefault e => exact reviveDefaultFire_playersOk hw.1 e
  | revivePvp e => exact revivePvpFire_playersOk hw.1 e
  | monsterRespawn mid =>
    intro pr hpr
    dsimp only [step] at hpr
    rw [respawnFire_players w mid] at hpr
    exact hw.1 pr hpr

lemma reachable_worldOk {w : World} (hr : Reachable w) : WorldOk w := by
  induction hr with
  | init =>
    constructor
    · intro pr hpr; cases hpr
    · intro mr hmr; cases hmr
  | next op _ hvalid ih => exact step_worldOk ih op hvalid

/-- C1 amended: in every state reachable by validated operations (all
client-supplied `player:hit` damage values non-negative, all
`player:allocateStat` point counts non-negative, all `player:join` levels
at least 1 — see the counterexample for why each restriction is forced),
every player satisfies `0 ≤ hp ≤ maxHp`, and `maxHp`/`attack` are exactly
the Stat Pipeline's output (`calculateDerivedStats` plus summed equipment
bonuses) for the player's current level, allocated points and equipment. -/
theorem claim_C1_hpStatInvariant {w : World} (hr : Reachable w) :
    ∀ e p, alookup w.players e = some p →
      0 ≤ p.hp ∧ p.hp ≤ p.maxHp
        ∧ p.maxHp = pipelineMaxHp p ∧ p.attack = pipelineAttack p := by
  intro e p hp
  have h := (reachable_worldOk hr).1 (e, p) (alookup_mem hp)
  exact ⟨h.2.1, h.2.2.1, h.2.2.2.1, h.2.2.2.2.1⟩

/-- The world after the sample identity joins the empty server at level 1
(a reachable state: one `player:join` operation). -/
def c1JoinWorld : World :=
  (step World.empty (Op.join "a@x" "A" "assassin" 1 0 400 400 "town_1" "s1" 0 [])).1

/-- C1 as stated is false on the code, in three independent ways, one per
unvalidated client number.  (1) A `player:hit` carrying the client-supplied
damage −100 drives the freshly joined player's hp to 220 while maxHp stays
120, violating `hp ≤ maxHp` (`Math.max(0, hp - damage)` only clamps from
below).  (2) A `player:allocateStat` carrying −13 points passes the
`statPointsAvailable < points` guard (`5 < −13` is false), drives VIT to
−12 and the recomputed maxHp to −10, and the final
`hp = Math.min(hp, maxHp)` clamp leaves `hp = −10 < 0`.  (3) A first
`player:join` carrying the client level −4 builds the player with
`hp = maxHp = 120 + 25·(−5) = −5 < 0`. -/
theorem claim_C1_counterexample :
    ((alookup (step c1JoinWorld (Op.playerHit "a@x" (-100) none)).1.players
        "a@x").map Player.hp = some 220
      ∧ (alookup (step c1JoinWorld (Op.playerHit "a@x" (-100) none)).1.players
          "a@x").map Player.maxHp = some 120
      ∧ ¬ ((220 : ℚ) ≤ 120))
    ∧ ((alookup (step c1JoinWorld (Op.allocateStat "a@x" "VIT" (-13))).1.players
        "a@x").map Player.hp = some (-10)
      ∧ ¬ ((0 : ℚ) ≤ -10))
    ∧ ((alookup (step World.empty
          (Op.join "b@x" "B" "assassin" (-4) 0 400 400 "town_1" "s2" 0 [])).1.players
        "b@x").map Player.hp = some (-5)
      ∧ ¬ ((0 : ℚ) ≤ -5)) := by
  refine ⟨⟨?_, ?_, by norm_num⟩, ⟨?_, by norm_num⟩, ⟨?_, by norm_num⟩⟩ <;>
    norm_num [c1JoinWorld, step, joinHandler, joinFreshPlayer, playerHitHandler,
      allocateStatHandler, setStat, statKeyValid,
      World.empty, alookup, amodify, pupdate, spawnMonsters, monsterSpawns,
      addToMapIndex, recalcPlayerWithEquipment, pipelineMaxHp, pipelineAttack,
      pipelineSpeed, calculateDerivedStats, calculatePlayerStats, classBase,
      assassinBase, or1, bonusFor, handlePlayerDeath, mapSpawnX, mapSpawnY,
      MAPS, jsRound, max_def, min_def,
      show ("VIT" : String) ≠ "STR" from by decide,
      show ("VIT" : String) ≠ "AGI" from by decide]

/-- Witness for the amended C1 at the concrete reachable one-join world. -/
theorem claim_C1_hpStatInvariant_witness :
    0 ≤ (joinFreshPlayer "a@x" "A" "assassin" 1 0 400 400 "town_1" "s1" 0).hp
      ∧ (joinFreshPlayer "a@x" "A" "assassin" 1 0 400 400 "town_1" "s1" 0).hp
        ≤ (joinFreshPlayer "a@x" "A" "assassin" 1 0 400 400 "town_1" "s1" 0).maxHp
      ∧ (joinFreshPlayer "a@x" "A" "assassin" 1 0 400 400 "town_1" "s1" 0).maxHp
        = pipelineMaxHp (joinFreshPlayer "a@x" "A" "assassin" 1 0 400 400
            "town_1" "s1" 0)
      ∧ (joinFreshPlayer "a@x" "A" "assassin" 1 0 400 400 "town_1" "s1" 0).attack
        = pipelineAttack (joinFreshPlayer "a@x" "A" "assassin" 1 0 400 400
            "town_1" "s1" 0) :=
  claim_C1_hpStatInvariant
    (Reachable.next (Op.join "a@x" "A" "assassin" 1 0 400 400 "town_1" "s1" 0 [])
      Reachable.init (le_refl (1 : ℤ)))
    "a@x" (joinFreshPlayer "a@x" "A" "assassin" 1 0 400 400 "town_1" "s1" 0) rfl

end MyRPG
